import Mathlib

/-!
Formal model of the c-ares query engine, shallowly embedded from
`src/lib/ares_process.c`, `src/lib/ares_init.c` and `src/lib/ares_private.h`.

Machine integers are modelled as `Nat` (all the quantities involved are
non-negative C `size_t` / `unsigned short` values); wrap-around is made
explicit where the source relies on it.  External collaborators that are not
part of the provided sources (the DNS wire parser, the socket layer, the
allocator) are modelled as explicit oracle parameters or, where a claim
depends on their behaviour, as definitions translated from the
specification (marked `Modelled from the spec:`).
-/

namespace CAres

/-! ### Constants from `ares_private.h` / `ares_dns.h` -/

def DEFAULT_TIMEOUT : Nat := 2000

def DEFAULT_TRIES : Nat := 3

def NAMESERVER_PORT : Nat := 53

def EDNSPACKETSZ : Nat := 1280

def MAXENDSSZ : Nat := 4096

def EDNSFIXEDSZ : Nat := 11

def PACKETSZ : Nat := 512

/-- DNS record type code of an OPT RR (`ARES_REC_TYPE_OPT`). -/
def ARES_REC_TYPE_OPT : Nat := 41

/-! ### Status codes (`ares.h` error taxonomy, §7 of the spec) -/

inductive AresStatus where
  | success
  | enodata
  | eformerr
  | eservfail
  | enotfound
  | enotimp
  | erefused
  | ebadquery
  | ebadname
  | ebadfamily
  | ebadresp
  | econnrefused
  | etimeout
  | enomem
  | ecancelled
  | edestruction
  | enotinitialized
  | ebadstr
  deriving DecidableEq, Repr

/-- DNS response codes as returned by the wire parser. -/
inductive DnsRcode where
  | noerror
  | formerr
  | servfail
  | nxdomain
  | notimp
  | refused
  | otherRcode (n : Nat)
  deriving DecidableEq, Repr

/-! ### Parsed DNS records (output of the opaque wire parser) -/

structure DnsQuestion where
  qname : List Char
  qtype : Nat
  qclass : Nat
  deriving DecidableEq, Repr

/-- The abstract result of `ares_dns_parse`: the fields of a parsed DNS
message that `ares_process.c` consumes. -/
structure DnsRec where
  id : Nat
  tcFlag : Bool
  rcode : DnsRcode
  questions : List DnsQuestion
  addRRTypes : List Nat
  deriving DecidableEq, Repr

/-- The opaque DNS wire parser (`ares_dns_parse`), supplied as an oracle:
`none` models a parse failure. -/
def DnsParser : Type := List Nat → Option DnsRec

/-! ### `struct timeval` arithmetic (`ares_process.c`) -/

structure Timeval where
  sec : Int
  usec : Int
  deriving DecidableEq, Repr

/-- `timeadd`: add `millisecs` milliseconds to a `timeval`
(`ares_process.c` lines 91-100). -/
def timeadd (now : Timeval) (millisecs : Nat) : Timeval :=
  let s : Int := now.sec + (millisecs / 1000 : Nat)
  let u : Int := now.usec + (((millisecs % 1000) * 1000 : Nat) : Int)
  if u ≥ 1000000 then { sec := s + 1, usec := u - 1000000 }
  else { sec := s, usec := u }

/-- Total microseconds represented by a `timeval` (for stating that
`timeadd` really adds time). -/
def tvUsecTotal (t : Timeval) : Int := t.sec * 1000000 + t.usec

/-- `ares__timedout` (`ares_process.c` lines 75-88). -/
def ares__timedout (now check : Timeval) : Bool :=
  let secs := now.sec - check.sec
  if secs > 0 then true
  else if secs < 0 then false
  else decide (now.usec - check.usec ≥ 0)

/-! ### Timeout doubling in `ares__send_query`
(`ares_process.c` lines 816-838).  `sizeof(int) * CHAR_BIT - 1 = 31`. -/

def sendQueryTimeplus (timeout try_count nservers : Nat) : Nat :=
  let shift := try_count / nservers
  if shift ≤ 31 && timeout >>> (31 - shift) == 0 then
    timeout <<< shift
  else
    timeout

/-! ### Case-insensitive name comparison (`strcasecmp` on ASCII) -/

def lowerAscii (c : Char) : Char :=
  if 'A' ≤ c && c ≤ 'Z' then Char.ofNat (c.toNat + 32) else c

def caseInsensitiveEq (a b : List Char) : Bool :=
  a.map lowerAscii == b.map lowerAscii

/-- `same_questions` (`ares_process.c` lines 865-909): re-parse the request
buffer and compare question count plus, per question, case-insensitive name
and exact type and class. -/
def same_questions (P : DnsParser) (qbuf : List Nat) (arec : DnsRec) : Bool :=
  match P qbuf with
  | none => false
  | some qrec =>
    if qrec.questions.length != arec.questions.length then false
    else
      (List.zip qrec.questions arec.questions).all fun qa =>
        caseInsensitiveEq qa.1.qname qa.2.qname &&
        qa.1.qtype == qa.2.qtype && qa.1.qclass == qa.2.qclass

/-- `has_opt_rr` (`ares_process.c` lines 941-953): search the additional
section for an OPT RR. -/
def has_opt_rr (arec : DnsRec) : Bool :=
  arec.addRRTypes.any (· == ARES_REC_TYPE_OPT)

/-! ### Addresses (`struct ares_addr`, `same_address`) -/

inductive AddrFamily where
  | inet
  | inet6
  | otherFam (n : Nat)
  deriving DecidableEq, Repr

/-- `struct ares_addr` (`ares_private.h` lines 153-163); the two address
unions are modelled as byte lists, ports are 16-bit values in network
byte order. -/
structure AresAddr where
  family : AddrFamily
  addrV4 : List Nat
  addrV6 : List Nat
  udp_port : Nat
  tcp_port : Nat
  deriving DecidableEq, Repr

/-- The source address reported by `recvfrom` for a datagram. -/
structure SockAddr where
  family : AddrFamily
  bytes : List Nat
  deriving DecidableEq, Repr

/-- `same_address` (`ares_process.c` lines 911-938). -/
def same_address (sa : SockAddr) (aa : AresAddr) : Bool :=
  if sa.family == aa.family then
    match aa.family with
    | .inet => aa.addrV4 == sa.bytes
    | .inet6 => aa.addrV6 == sa.bytes
    | .otherFam _ => false
  else false

/-! ### The query-engine data model
(`ares_private.h` lines 168-350).  Connections are identified by unique ids
(modelling C object identity), queries by their 16-bit id. -/

/-- `struct query_server_info` (`ares_private.h` lines 246-249). -/
structure QueryServerInfo where
  skip_server : Bool
  tcp_connection_generation : Nat
  deriving DecidableEq, Repr

instance : Inhabited QueryServerInfo := ⟨⟨false, 0⟩⟩

/-- `struct query` (`ares_private.h` lines 207-243).  `qbuf` is represented
by `tcpbuf.drop 2` as in the source (`qbuf` points into `tcpbuf`);
`conn` holds the id of the connection the query was last enqueued on. -/
structure Query where
  qid : Nat
  timeout : Timeval
  tcpbuf : List Nat
  tcplen : Nat
  qlen : Nat
  try_count : Nat
  server : Nat
  server_info : List QueryServerInfo
  using_tcp : Bool
  error_status : AresStatus
  timeouts : Nat
  no_retries : Bool
  conn : Option Nat
  deriving DecidableEq, Repr

/-- `struct server_connection` (`ares_private.h` lines 172-180). -/
structure Connection where
  id : Nat
  serverIdx : Nat
  fd : Nat
  is_tcp : Bool
  total_queries : Nat
  queries_to_conn : List Nat
  deriving DecidableEq, Repr

/-- `struct server_state` (`ares_private.h` lines 182-204); `connections`
lists connection ids front first, `tcp_send_len` models the length of the
TCP output buffer. -/
structure Server where
  idx : Nat
  addr : AresAddr
  connections : List Nat
  tcp_conn : Option Nat
  tcp_connection_generation : Nat
  tcp_send_len : Nat
  deriving DecidableEq, Repr

instance : Inhabited Server :=
  ⟨⟨0, ⟨.inet, [0, 0, 0, 0], List.replicate 16 0, 0, 0⟩, [], none, 0, 0⟩⟩

/-- The channel configuration consumed by `ares_process.c`
(`struct ares_channeldata`, `ares_private.h` lines 274-350); the flag
bitmask is split into the individual flags the dispatcher reads. -/
structure Channel where
  flagEDNS : Bool
  flagIGNTC : Bool
  flagNOCHECKRESP : Bool
  timeout : Nat
  tries : Nat
  udp_max_queries : Nat
  ednspsz : Nat
  servers : List Server
  deriving DecidableEq, Repr

def Channel.nservers (ch : Channel) : Nat := ch.servers.length

/-- The mutable state of one channel's query engine: connections, the
`connnode_by_socket` map, live queries (`all_queries` / `queries_by_qid`),
the log of callback invocations, and two oracle streams standing in for
the injectable socket layer (`ares__open_connection` results and UDP
`ares__socket_write` results). -/
structure EngineState where
  channel : Channel
  conns : List Connection
  connnode_by_socket : List (Nat × Nat)
  nextConnId : Nat
  nextFd : Nat
  queries : List Query
  ended : List (Nat × AresStatus)
  openPlan : List AresStatus
  writePlan : List Bool
  deriving DecidableEq, Repr

def EngineState.findConn (st : EngineState) (cid : Nat) : Option Connection :=
  st.conns.find? (fun c => c.id == cid)

def EngineState.findQuery (st : EngineState) (qid : Nat) : Option Query :=
  st.queries.find? (fun q => q.qid == qid)

def updateConn (st : EngineState) (cid : Nat) (f : Connection → Connection) :
    EngineState :=
  { st with conns := st.conns.map (fun c => if c.id == cid then f c else c) }

def updateQuery (st : EngineState) (qid : Nat) (f : Query → Query) :
    EngineState :=
  { st with queries := st.queries.map (fun q => if q.qid == qid then f q else q) }

def updateServer (st : EngineState) (i : Nat) (f : Server → Server) :
    EngineState :=
  { st with channel := { st.channel with
      servers := st.channel.servers.set i (f (st.channel.servers.getD i default)) } }

/-! ### Atomic engine operations (`ares_process.c`) -/

/-- `ares_detach_query` (`ares_process.c` lines 955-965): remove the query
from `queries_by_qid` / `all_queries` (here: the `queries` list) and from
whichever connection list holds it. -/
def detachQuery (st : EngineState) (qid : Nat) : EngineState :=
  let conns' := st.conns.map fun c =>
    { c with queries_to_conn := c.queries_to_conn.filter (fun x => x ≠ qid) }
  let queries' := st.queries.filter (fun q => q.qid ≠ qid)
  { st with conns := conns', queries := queries' }

/-- `end_query` (`ares_process.c` lines 967-981): detach from all indexes,
then invoke the callback (recorded in the `ended` log). -/
def endQuery (st : EngineState) (qid : Nat) (status : AresStatus) : EngineState :=
  let st := detachQuery st qid
  { st with ended := st.ended ++ [(qid, status)] }

/-- Destroy only `query->node_queries_to_conn` (used by `process_answer`,
`ares_process.c` lines 556-557). -/
def detachConnNode (st : EngineState) (qid : Nat) : EngineState :=
  let conns' := st.conns.map fun c =>
    { c with queries_to_conn := c.queries_to_conn.filter (fun x => x ≠ qid) }
  { st with conns := conns' }

/-- `skip_server` (`ares_process.c` lines 660-674): only mark the server
to be skipped when the channel has other servers to try. -/
def skip_server (ch : Channel) (q : Query) (srvIdx : Nat) : Query :=
  if ch.nservers > 1 then
    let info' := { q.server_info.getD srvIdx default with skip_server := true }
    { q with server_info := q.server_info.set srvIdx info' }
  else q

def skipServerF (st : EngineState) (qid srvIdx : Nat) : EngineState :=
  updateQuery st qid (fun q => skip_server st.channel q srvIdx)

/-- Modelled from the spec: `ares__close_connection` (declared in
`ares_private.h` but defined outside the provided sources).  Spec §4.3:
destroy the connection — socket closed, removed from `connection_by_socket`
and from the server (clearing `tcp_conn` when it was the TCP connection). -/
def closeConnection (st : EngineState) (cid : Nat) : EngineState :=
  match st.findConn cid with
  | none => st
  | some conn =>
    let conns' := st.conns.filter (fun c => c.id ≠ cid)
    let socketmap' := st.connnode_by_socket.filter (fun p => p.2 ≠ cid)
    let st := { st with conns := conns', connnode_by_socket := socketmap' }
    updateServer st conn.serverIdx fun s =>
      { s with connections := s.connections.filter (fun x => x ≠ cid),
               tcp_conn := if s.tcp_conn == some cid then none else s.tcp_conn }

/-- Modelled from the spec: `ares__open_connection` (declared in
`ares_private.h` but defined outside the provided sources).  Spec §4.2 and
§5: open a socket to the server (outcome drawn from the oracle stream),
insert the new connection at the front of the server's connection list,
register it in `connection_by_socket`, and for TCP set `tcp_conn` and
increment the server's connection generation. -/
def openConnection (st : EngineState) (srvIdx : Nat) (is_tcp : Bool) :
    EngineState × AresStatus :=
  let status := st.openPlan.headD .success
  let st := { st with openPlan := st.openPlan.tail }
  match status with
  | .success =>
    let cid := st.nextConnId
    let fd := st.nextFd
    let conn : Connection :=
      { id := cid, serverIdx := srvIdx, fd := fd, is_tcp := is_tcp,
        total_queries := 0, queries_to_conn := [] }
    let st := { st with conns := conn :: st.conns,
                        nextConnId := cid + 1, nextFd := fd + 1,
                        connnode_by_socket := (fd, cid) :: st.connnode_by_socket }
    let st := updateServer st srvIdx (fun s =>
      { s with connections := cid :: s.connections,
               tcp_conn := if is_tcp then some cid else s.tcp_conn,
               tcp_connection_generation :=
                 if is_tcp then s.tcp_connection_generation + 1
                 else s.tcp_connection_generation })
    (st, .success)
  | s => (st, s)

/-- Modelled from the spec: `ares__check_cleanup_conn` (declared in
`ares_private.h` but defined outside the provided sources).  Spec §5
resource policy: a UDP connection is closed once its query list is empty
and it has exceeded `udp_max_queries`. -/
def checkCleanupConn (st : EngineState) (fd : Nat) : EngineState :=
  match st.connnode_by_socket.find? (fun p => p.1 == fd) with
  | none => st
  | some p =>
    match st.findConn p.2 with
    | none => st
    | some c =>
      if !c.is_tcp && c.queries_to_conn.isEmpty &&
         st.channel.udp_max_queries > 0 &&
         c.total_queries ≥ st.channel.udp_max_queries then
        closeConnection st p.2
      else st

/-! ### `next_server` (`ares_process.c` lines 676-717)

The loop `while (++try_count < nservers * tries && !no_retries) { ... }` is
split into a pure scan that returns the `(try_count, server)` values at
which the loop settles on a candidate (`none` when the loop exhausts all
attempts, in which case the query is ended and its final counter values are
unobservable), and a wrapper that applies the loop's effects. -/

/-- Acceptability of the candidate server `s'` for a query
(`ares_process.c` lines 694-701): not marked `skip_server`, and not a TCP
retry into the same socket incarnation. -/
def acceptableCandidate (ch : Channel) (using_tcp : Bool)
    (sinfo : List QueryServerInfo) (s' : Nat) : Bool :=
  let info := sinfo.getD s' default
  let sgen := (ch.servers.getD s' default).tcp_connection_generation
  !info.skip_server && !(using_tcp && info.tcp_connection_generation == sgen)

/-- The candidate scan of `next_server`: starting from counters `(t, s)`,
increment `t` and advance `s` modulo `nservers` until an acceptable
candidate is found or `t` reaches `nservers * tries` (or `no_retries`
stops the loop).  `fuel` is structural; any `fuel > nservers * tries - t`
is enough (see `nextServerScan_eq_firstAcceptable`). -/
def nextServerScan (ch : Channel) (no_retries using_tcp : Bool)
    (sinfo : List QueryServerInfo) : Nat → Nat → Nat → Option (Nat × Nat)
  | 0, _, _ => none
  | fuel + 1, t, s =>
    if t + 1 < ch.nservers * ch.tries && !no_retries then
      let s' := (s + 1) % ch.nservers
      if acceptableCandidate ch using_tcp sinfo s' then some (t + 1, s')
      else nextServerScan ch no_retries using_tcp sinfo fuel (t + 1) s'
    else none

/-- Declarative form of the scan: the first loop iteration `i` whose
candidate server `(s + 1 + i) % nservers` is acceptable, among the
iterations `i < nservers * tries - (t + 1)` the loop can perform. -/
def firstAcceptable (ch : Channel) (using_tcp : Bool)
    (sinfo : List QueryServerInfo) (t s : Nat) : Option (Nat × Nat) :=
  ((List.range (ch.nservers * ch.tries - (t + 1))).find?
      (fun i => acceptableCandidate ch using_tcp sinfo ((s + 1 + i) % ch.nservers))).map
    (fun i => (t + 1 + i, (s + 1 + i) % ch.nservers))

/-! ### `ares__send_query` (`ares_process.c` lines 719-861)

The connection-selection part of `ares__send_query` (the `using_tcp`
branch and its `else`) ends in one of three continuations: retry on the
next server, end the query with a fatal status, or enqueue on a chosen
connection and fall through to the timeout bookkeeping. -/

inductive SendPath where
  | retryNext (st : EngineState)
  | fatalEnd (st : EngineState) (status : AresStatus)
  | enqueueOn (st : EngineState) (cid : Nat)
  deriving Repr

/-- TCP branch tail (`ares_process.c` lines 754-769): append the
length-prefixed request to the server's TCP send buffer and record the
connection generation the query was sent into. -/
def tcpAppend (st : EngineState) (qid srvIdx : Nat) : SendPath :=
  match (st.channel.servers.getD srvIdx default).tcp_conn, st.findQuery qid with
  | some cid, some q =>
    let gen := (st.channel.servers.getD srvIdx default).tcp_connection_generation
    let st := updateServer st srvIdx fun s =>
      { s with tcp_send_len := s.tcp_send_len + q.tcplen }
    let st := updateQuery st qid fun q =>
      let info' := { q.server_info.getD srvIdx default with
                       tcp_connection_generation := gen }
      { q with server_info := q.server_info.set srvIdx info' }
    .enqueueOn st cid
  | _, _ => .fatalEnd st .enomem

/-- UDP connection reuse check (`ares_process.c` lines 771-784): use the
front connection of the server unless it is TCP or has exceeded
`udp_max_queries`. -/
def udpPickConn (st : EngineState) (srvIdx : Nat) : Option Nat :=
  match (st.channel.servers.getD srvIdx default).connections.head? with
  | none => none
  | some cid =>
    match st.findConn cid with
    | none => none
    | some c =>
      if c.is_tcp then none
      else if st.channel.udp_max_queries > 0 &&
              c.total_queries ≥ st.channel.udp_max_queries then none
      else some cid

/-- UDP write (`ares_process.c` lines 808-813): on write failure skip the
server and retry; the outcome is drawn from the write oracle stream. -/
def udpWrite (st : EngineState) (qid srvIdx cid : Nat) : SendPath :=
  let ok := st.writePlan.headD true
  let st := { st with writePlan := st.writePlan.tail }
  if ok then .enqueueOn st cid
  else .retryNext (skipServerF st qid srvIdx)

/-- The connection-selection phase of `ares__send_query`
(`ares_process.c` lines 727-814), including the open-failure taxonomy
(retryable `ECONNREFUSED` / `EBADFAMILY` versus fatal). -/
def sendQuerySelect (st : EngineState) (qid : Nat) : Option SendPath :=
  match st.findQuery qid with
  | none => none
  | some q =>
    if q.server < st.channel.servers.length then
      let server := st.channel.servers.getD q.server default
      if q.using_tcp then
        if server.tcp_conn == none then
          match openConnection st q.server true with
          | (st1, .success) => some (tcpAppend st1 qid q.server)
          | (st1, .econnrefused) => some (.retryNext (skipServerF st1 qid q.server))
          | (st1, .ebadfamily) => some (.retryNext (skipServerF st1 qid q.server))
          | (st1, s) => some (.fatalEnd st1 s)
        else some (tcpAppend st qid q.server)
      else
        match udpPickConn st q.server with
        | some cid => some (udpWrite st qid q.server cid)
        | none =>
          match openConnection st q.server false with
          | (st1, .success) =>
            match (st1.channel.servers.getD q.server default).connections.head? with
            | some cid => some (udpWrite st1 qid q.server cid)
            | none => some (.fatalEnd st1 .enomem)
          | (st1, .econnrefused) => some (.retryNext (skipServerF st1 qid q.server))
          | (st1, .ebadfamily) => some (.retryNext (skipServerF st1 qid q.server))
          | (st1, s) => some (.fatalEnd st1 s)
    else none

/-- The bookkeeping tail of `ares__send_query` after a successful enqueue
(`ares_process.c` lines 816-860): compute `timeplus`, re-arm the deadline
to `now + timeplus`, move the query onto the chosen connection's list and
count the query against the connection. -/
def sendQueryEnqueue (st : EngineState) (qid cid : Nat) (now : Timeval) :
    EngineState :=
  match st.findQuery qid with
  | none => st
  | some q =>
    let timeplus :=
      sendQueryTimeplus st.channel.timeout q.try_count st.channel.nservers
    let st := detachConnNode st qid
    let st := updateConn st cid fun c =>
      { c with queries_to_conn := c.queries_to_conn ++ [qid],
               total_queries := c.total_queries + 1 }
    updateQuery st qid fun q =>
      { q with timeout := timeadd now timeplus, conn := some cid }

mutual

/-- `ares__send_query` (`ares_process.c` lines 719-861): select or open a
connection, then either retry on the next server, end the query, or
enqueue and re-arm the deadline.  `fuel` bounds the mutual recursion with
`next_server`; `none` means the fuel ran out. -/
def sendQueryF : Nat → EngineState → Nat → Timeval → Option (EngineState × AresStatus)
  | 0, _, _, _ => none
  | fuel + 1, st, qid, now =>
    match sendQuerySelect st qid with
    | none => none
    | some (.retryNext st1) => nextServerF fuel st1 qid now
    | some (.fatalEnd st1 status) => some (endQuery st1 qid status, status)
    | some (.enqueueOn st1 cid) => some (sendQueryEnqueue st1 qid cid now, .success)

/-- `next_server` (`ares_process.c` lines 676-717): advance to the first
acceptable candidate server and send there, or end the query with its
accumulated `error_status`. -/
def nextServerF : Nat → EngineState → Nat → Timeval → Option (EngineState × AresStatus)
  | 0, _, _, _ => none
  | fuel + 1, st, qid, now =>
    match st.findQuery qid with
    | none => none
    | some q =>
      match nextServerScan st.channel q.no_retries q.using_tcp q.server_info
          (st.channel.nservers * st.channel.tries + 1) q.try_count q.server with
      | some (t', s') =>
        sendQueryF fuel
          (updateQuery st qid (fun qq => { qq with try_count := t', server := s' }))
          qid now
      | none => some (endQuery st qid q.error_status, q.error_status)

end

/-! ### `process_answer` (`ares_process.c` lines 518-631) -/

/-- How `process_answer` disposed of an incoming packet. -/
inductive PAOutcome where
  | dropParseFail
  | dropNoQuery
  | dropWrongQuestions
  | ednsRetry
  | truncRetry
  | truncDrop
  | rcodeRetry
  | delivered
  deriving DecidableEq, Repr

/-- The EDNS fallback edit of the outbound request
(`ares_process.c` lines 567-575): shrink `tcplen` and `qlen` by
`EDNSFIXEDSZ`, rewrite the two-byte big-endian TCP length prefix, zero the
header's ARCOUNT (header bytes 10 and 11, i.e. `tcpbuf` indexes 12 and 13),
and shrink the buffer. -/
def ednsStripQuery (q : Query) : Query :=
  let qlen2 := (q.tcplen - 2) - EDNSFIXEDSZ
  let tcplen' := q.tcplen - EDNSFIXEDSZ
  let buf := q.tcpbuf
  let buf := buf.set 0 ((qlen2 >>> 8) &&& 0xff)
  let buf := buf.set 1 (qlen2 &&& 0xff)
  let buf := buf.set 12 0
  let buf := buf.set 13 0
  let buf := buf.take tcplen'
  { q with tcplen := tcplen', qlen := q.qlen - EDNSFIXEDSZ, tcpbuf := buf }

/-- The rcode-to-status mapping of the response filtering switch
(`ares_process.c` lines 603-615); the `default` arm leaves `error_status`
unchanged. -/
def rcodeMappedStatus (r : DnsRcode) (old : AresStatus) : AresStatus :=
  match r with
  | .servfail => .eservfail
  | .notimp => .enotimp
  | .refused => .erefused
  | _ => old

/-- `process_answer` (`ares_process.c` lines 518-631).  `P` is the opaque
DNS parser, `cid` the connection the bytes arrived on, `tcp` whether they
arrived over TCP.  Returns the new state and how the packet was disposed
of (`none` only on interpreter fuel exhaustion). -/
def processAnswerF (P : DnsParser) (fuel : Nat) (st : EngineState)
    (abuf : List Nat) (cid : Nat) (tcp : Bool) (now : Timeval) :
    Option (EngineState × PAOutcome) :=
  match st.findConn cid with
  | none => none
  | some conn =>
    let fd := conn.fd
    let serverIdx := conn.serverIdx
    match P abuf with
    | none => some (st, .dropParseFail)
    | some dnsrec =>
      match st.findQuery dnsrec.id with
      | none => some (st, .dropNoQuery)
      | some query =>
        if !same_questions P ((query.tcpbuf.drop 2).take query.qlen) dnsrec then
          some (st, .dropWrongQuestions)
        else
          let st := detachConnNode st query.qid
          let packetsz := if st.channel.flagEDNS then st.channel.ednspsz else PACKETSZ
          if st.channel.flagEDNS && dnsrec.rcode == DnsRcode.formerr &&
             !has_opt_rr dnsrec then
            let flags' := Bool.xor st.channel.flagEDNS true
            let st := { st with channel := { st.channel with flagEDNS := flags' } }
            let st := updateQuery st query.qid ednsStripQuery
            match sendQueryF fuel st query.qid now with
            | none => none
            | some (st, _) => some (checkCleanupConn st fd, .ednsRetry)
          else if (dnsrec.tcFlag || abuf.length > packetsz) && !tcp &&
                  !st.channel.flagIGNTC then
            if !query.using_tcp then
              let st := updateQuery st query.qid fun q => { q with using_tcp := true }
              match sendQueryF fuel st query.qid now with
              | none => none
              | some (st, _) => some (checkCleanupConn st fd, .truncRetry)
            else some (checkCleanupConn st fd, .truncDrop)
          else if !st.channel.flagNOCHECKRESP &&
                  (dnsrec.rcode == DnsRcode.servfail ||
                   dnsrec.rcode == DnsRcode.notimp ||
                   dnsrec.rcode == DnsRcode.refused) then
            let st := updateQuery st query.qid fun q =>
              { q with error_status := rcodeMappedStatus dnsrec.rcode q.error_status }
            let st := skipServerF st query.qid serverIdx
            if query.server == serverIdx then
              match nextServerF fuel st query.qid now with
              | none => none
              | some (st, _) => some (checkCleanupConn st fd, .rcodeRetry)
            else some (checkCleanupConn st fd, .rcodeRetry)
          else
            some (checkCleanupConn (endQuery st query.qid .success) fd, .delivered)

/-- One datagram step of `read_udp_packets_fd`
(`ares_process.c` lines 377-416, the `read_len > 0` case): a datagram whose
source address is not the server's address is skipped before
`process_answer` is reached; the second component is `some` exactly when
`process_answer` ran. -/
def udpReadDatagram (P : DnsParser) (fuel : Nat) (st : EngineState)
    (fromAddr : SockAddr) (abuf : List Nat) (cid : Nat) (now : Timeval) :
    Option (EngineState × Option PAOutcome) :=
  match st.findConn cid with
  | none => none
  | some conn =>
    match st.channel.servers.get? conn.serverIdx with
    | none => none
    | some server =>
      if !same_address fromAddr server.addr then some (st, none)
      else
        match processAnswerF P fuel st abuf cid false now with
        | none => none
        | some (st', out) => some (st', some out)

/-! ### `handle_error` (`ares_process.c` lines 633-658) -/

/-- The requeue loop of `handle_error` (`ares_process.c` lines 648-655):
for each query stolen from the broken connection, `skip_server` then
`next_server`. -/
def requeueList (fuel : Nat) (st : EngineState) (srvIdx : Nat)
    (qids : List Nat) (now : Timeval) : Option EngineState :=
  match qids with
  | [] => some st
  | qid :: rest =>
    let st1 := skipServerF st qid srvIdx
    match nextServerF fuel st1 qid now with
    | none => none
    | some (st2, _) => requeueList fuel st2 srvIdx rest now

/-- `handle_error` (`ares_process.c` lines 633-658): steal the connection's
query list, destroy the connection, then requeue every stolen query.
Destroying first guarantees retries cannot pick the broken connection. -/
def handleErrorF (fuel : Nat) (st : EngineState) (cid : Nat) (now : Timeval) :
    Option EngineState :=
  match st.findConn cid with
  | none => none
  | some conn =>
    let st := updateConn st cid fun c => { c with queries_to_conn := [] }
    let st := closeConnection st cid
    requeueList fuel st conn.serverIdx conn.queries_to_conn now

/-! ### `init_by_defaults` (`ares_init.c` lines 1366-1528) -/

/-- 16-bit host-to-network byte swap (`htons`). -/
def htons (x : Nat) : Nat := (x % 256) * 256 + (x / 256) % 256

def INADDR_LOOPBACK : Nat := 0x7f000001

/-- The in-memory (network order) bytes of `htonl x` for a 32-bit `x`. -/
def htonlBytes (x : Nat) : List Nat :=
  [(x >>> 24) % 256, (x >>> 16) % 256, (x >>> 8) % 256, x % 256]

/-- The configuration fields of `struct ares_channeldata` that
`init_by_defaults` reads and writes.  `lookups = none` models the NULL
pointer, `servers = []` models `nservers == 0`. -/
structure ChannelConfig where
  timeout : Nat
  tries : Nat
  ndots : Nat
  udp_port : Nat
  tcp_port : Nat
  ednspsz : Nat
  servers : List AresAddr
  domains : List (List Char)
  nsort : Nat
  sortlist : List Nat
  lookups : Option (List Char)
  deriving DecidableEq, Repr

/-- The server entry installed when no name server was configured
(`ares_init.c` lines 1397-1410): a zeroed `server_state` with family
`AF_INET`, address `htonl(INADDR_LOOPBACK)` and per-address ports 0. -/
def loopbackServerAddr : AresAddr :=
  { family := .inet, addrV4 := htonlBytes INADDR_LOOPBACK,
    addrV6 := List.replicate 16 0, udp_port := 0, tcp_port := 0 }

/-- `init_by_defaults` is the sequence of "if still unset, install the
built-in default" steps of `ares_init.c` lines 1374-1489; each step below
is named after the field it seeds. -/
def initStepTimeout (ch : ChannelConfig) : ChannelConfig :=
  if ch.timeout = 0 then { ch with timeout := DEFAULT_TIMEOUT } else ch

def initStepTries (ch : ChannelConfig) : ChannelConfig :=
  if ch.tries = 0 then { ch with tries := DEFAULT_TRIES } else ch

def initStepNdots (ch : ChannelConfig) : ChannelConfig :=
  if ch.ndots = 0 then { ch with ndots := 1 } else ch

def initStepUdpPort (ch : ChannelConfig) : ChannelConfig :=
  if ch.udp_port = 0 then { ch with udp_port := htons NAMESERVER_PORT } else ch

def initStepTcpPort (ch : ChannelConfig) : ChannelConfig :=
  if ch.tcp_port = 0 then { ch with tcp_port := htons NAMESERVER_PORT } else ch

def initStepEdnspsz (ch : ChannelConfig) : ChannelConfig :=
  if ch.ednspsz = 0 then { ch with ednspsz := EDNSPACKETSZ } else ch

def initStepServers (ch : ChannelConfig) : ChannelConfig :=
  if ch.servers.length = 0 then { ch with servers := [loopbackServerAddr] } else ch

/-- The default search domain derived from the kernel hostname
(`ares_init.c` lines 1462-1476): everything after the first dot, when a
dot is present. -/
def init_domains_default (hostname : List Char) (old : List (List Char)) :
    List (List Char) :=
  match hostname.dropWhile (fun c => c ≠ '.') with
  | [] => old
  | _ :: afterDot => [afterDot]

def initStepDomains (hostname : List Char) (ch : ChannelConfig) : ChannelConfig :=
  if ch.domains.length = 0 then
    { ch with domains := init_domains_default hostname ch.domains }
  else ch

def initStepSortlist (ch : ChannelConfig) : ChannelConfig :=
  if ch.nsort = 0 then { ch with sortlist := [] } else ch

def initStepLookups (ch : ChannelConfig) : ChannelConfig :=
  if ch.lookups = none then { ch with lookups := some ['f', 'b'] } else ch

/-- `init_by_defaults` (`ares_init.c` lines 1366-1528), success path (the
allocator is idealized; allocation-failure unwinding is not modelled).
`hostname` stands for the externally supplied `gethostname` result used to
derive a default search domain. -/
def init_by_defaults (hostname : List Char) (ch : ChannelConfig) : ChannelConfig :=
  initStepLookups (initStepSortlist (initStepDomains hostname
    (initStepServers (initStepEdnspsz (initStepTcpPort (initStepUdpPort
      (initStepNdots (initStepTries (initStepTimeout ch)))))))))

/-! ### Server address strings (`ares_init.c` lines 1599-1837)

`ares_inet_pton` is not part of the provided sources; the two conversions
are taken as oracle parameters `pton4` / `pton6` (returning the 4- or
16-byte binary address).  C strings are modelled as `List Char` plus an
explicit length; reading one character past the given length (which
`parse_dnsaddrport` does) yields the terminator of the underlying buffer,
modelled by `charAt`'s default NUL. -/

def charAt (s : List Char) (i : Nat) : Char := s.getD i (Char.ofNat 0)

def isDigitC (c : Char) : Bool := '0' ≤ c && c ≤ '9'

def isxdigitC (c : Char) : Bool :=
  isDigitC c || ('a' ≤ c && c ≤ 'f') || ('A' ≤ c && c ≤ 'F')

/-- C `isspace` for the default locale. -/
def isSpaceC (c : Char) : Bool :=
  c == ' ' || c == Char.ofNat 9 || c == Char.ofNat 10 ||
  c == Char.ofNat 11 || c == Char.ofNat 12 || c == Char.ofNat 13

/-- `memchr(s + start, c, cnt)` returning the index in `s`. -/
def memchrIdx (s : List Char) (start cnt : Nat) (c : Char) : Option Nat :=
  (((s.drop start).take cnt).findIdx? (fun x => x == c)).map (· + start)

/-- Value of a string of decimal digits (helper for `atoi`). -/
def digitsVal (s : List Char) : Nat :=
  (s.takeWhile isDigitC).foldl (fun acc c => acc * 10 + (c.toNat - '0'.toNat)) 0

/-- C `atoi`: optional whitespace, optional sign, decimal digits. -/
def atoiC (s : List Char) : Int :=
  match s.dropWhile isSpaceC with
  | '-' :: rest => -(digitsVal rest : Int)
  | '+' :: rest => (digitsVal rest : Int)
  | rest => (digitsVal rest : Int)

/-- `(unsigned short)atoi(p)`: two's-complement truncation to 16 bits. -/
def atoiUShort (s : List Char) : Nat := ((atoiC s) % 65536).toNat

/-- `ares_ipv6_subnet_matches` (`ares_init.c` lines 1604-1631). -/
def subnetMaskByte (netmask i : Nat) : Nat :=
  if i < netmask / 8 then 0xff
  else if i = netmask / 8 && netmask % 8 != 0 then (0xff <<< (8 - netmask % 8)) % 256
  else 0

def ares_ipv6_subnet_matches (netbase : List Nat) (netmask : Nat)
    (ipaddr : List Nat) : Bool :=
  if netmask > 128 then false
  else
    (List.range 16).all fun i =>
      (netbase.getD i 0 &&& subnetMaskByte netmask i) ==
        (ipaddr.getD i 0 &&& subnetMaskByte netmask i)

/-- The blacklist table of `ares_ipv6_server_blacklisted`
(`ares_init.c` lines 1640-1648): the single subnet `fec0::/10`. -/
def blacklistNetbase : List Nat := [0xfe, 0xc0] ++ List.replicate 14 0

/-- `ares_ipv6_server_blacklisted` (`ares_init.c` lines 1634-1660). -/
def ares_ipv6_server_blacklisted (ipaddr : List Nat) : Bool :=
  ares_ipv6_subnet_matches blacklistNetbase 10 ipaddr

/-- Result of `parse_dnsaddrport`: the parsed host and port, or
`ARES_EBADSTR`. -/
inductive DnsAddrPort where
  | ok4 (addr : List Nat) (port : Nat)
  | ok6 (addr : List Nat) (port : Nat)
  | ebadstr
  deriving DecidableEq, Repr

/-- `INET6_ADDRSTRLEN` -/
def INET6_ADDRSTRLEN : Nat := 46

/-- `parse_dnsaddrport` (`ares_init.c` lines 1675-1757).  `str` is the
suffix of the configuration string starting at the token; `len` is the
token length (the source reads the character at index `len`, which
`charAt` models, yielding NUL at the end of the buffer).  Pointer
differences that the source computes in `size_t` are reproduced exactly:
`mylen = (addr_end - addr_start) + 1` is `(addr_end + 1) - addr_start`. -/
def parse_dnsaddrport (pton4 : List Char → Option (List Nat))
    (pton6 : List Char → Option (List Nat))
    (str : List Char) (len : Nat) : DnsAddrPort :=
  if len == 0 ||
     (charAt str 0 ≠ '[' && !isxdigitC (charAt str 0) && charAt str 0 ≠ ':') then
    .ebadstr
  else
    let bracketed := charAt str 0 == '['
    let parsedBounds : Option (Nat × Nat × Option (Nat × Nat)) :=
      if bracketed then
        match memchrIdx str 1 (len - 1) ']' with
        | none => none
        | some j =>
          if j < len then
            if charAt str (j + 1) ≠ ':' then none
            else if j + 1 == len then none
            else some (1, j - 1, some (j + 2, len - 1))
          else some (1, j - 1, none)
      else some (0, len - 1, none)
    match parsedBounds with
    | none => .ebadstr
    | some (addrStart, addrEnd, portBounds) =>
      let mylen := (addrEnd + 1) - addrStart
      if mylen + 1 > INET6_ADDRSTRLEN then .ebadstr
      else
        let ipaddr := (str.drop addrStart).take mylen
        let ipportOpt : Option (List Char) :=
          match portBounds with
          | none => some ['0']
          | some (portStart, portEnd) =>
            let plen := (portEnd + 1) - portStart
            if plen + 1 > 6 then none
            else some ((str.drop portStart).take plen)
        match ipportOpt with
        | none => .ebadstr
        | some ipport =>
          match pton4 ipaddr with
          | some a4 => .ok4 a4 (atoiUShort ipport)
          | none =>
            match pton6 ipaddr with
            | some a6 =>
              if !ares_ipv6_server_blacklisted a6 then .ok6 a6 (atoiUShort ipport)
              else .ebadstr
            | none => .ebadstr

/-- Modelled from the spec: `ares_inet_pton(AF_INET, …)` (not part of the
provided sources).  Spec §6: an IPv4 dotted-quad — four decimal components
of up to three digits, each at most 255, separated by dots. -/
def inet_pton4 (s : List Char) : Option (List Nat) :=
  let parts := ((s.map (fun c => if c == '.' then ' ' else c)).splitOn ' ')
  if parts.length == 4 &&
     parts.all (fun p =>
       p.length ≥ 1 && p.length ≤ 3 && p.all isDigitC && digitsVal p ≤ 255) then
    some (parts.map digitsVal)
  else none

/-! ### `config_nameserver` (`ares_init.c` lines 1775-1837) -/

def isSepC (c : Char) : Bool := isSpaceC c || c == ','

/-- One `realloc` verdict drawn from the allocation oracle. -/
def popAlloc (plan : List Bool) : Bool × List Bool := (plan.headD true, plan.tail)

/-- The scanning loop of `config_nameserver`: skip separators, take a
token, try `parse_dnsaddrport`, silently skip tokens that fail to parse,
append parsed servers (a failed `realloc`, drawn from `allocPlan`, aborts
with `ARES_ENOMEM` keeping the servers appended so far).  `fuel` is
structural; `fuel > length of the remaining input` always suffices
(`config_nameserverAux_total`). -/
def config_nameserverAux (pton4 pton6 : List Char → Option (List Nat)) :
    List Bool → List AresAddr → List Char → Nat →
    Option (AresStatus × List AresAddr)
  | _, _, _, 0 => none
  | allocPlan, servers, s, fuel + 1 =>
    let rest := s.dropWhile isSepC
    match rest with
    | [] => some (.success, servers)
    | _ :: _ =>
      let tokLen := (rest.takeWhile (fun c => !isSepC c)).length
      let rest' := rest.dropWhile (fun c => !isSepC c)
      match parse_dnsaddrport pton4 pton6 rest tokLen with
      | .ebadstr => config_nameserverAux pton4 pton6 allocPlan servers rest' fuel
      | .ok4 a4 port =>
        let (ok, allocPlan') := popAlloc allocPlan
        if ok then
          let srv : AresAddr :=
            { family := .inet, addrV4 := a4, addrV6 := List.replicate 16 0,
              udp_port := htons port, tcp_port := htons port }
          config_nameserverAux pton4 pton6 allocPlan' (servers ++ [srv]) rest' fuel
        else some (.enomem, servers)
      | .ok6 a6 port =>
        let (ok, allocPlan') := popAlloc allocPlan
        if ok then
          let srv : AresAddr :=
            { family := .inet6, addrV4 := [0, 0, 0, 0], addrV6 := a6,
              udp_port := htons port, tcp_port := htons port }
          config_nameserverAux pton4 pton6 allocPlan' (servers ++ [srv]) rest' fuel
        else some (.enomem, servers)

/-- `config_nameserver` (`ares_init.c` lines 1775-1837), run with always
sufficient fuel. -/
def config_nameserver (pton4 pton6 : List Char → Option (List Nat))
    (allocPlan : List Bool) (servers : List AresAddr) (s : List Char) :
    Option (AresStatus × List AresAddr) :=
  config_nameserverAux pton4 pton6 allocPlan servers s (s.length + 1)

/-! ## Helper lemmas -/

theorem find?_update_self (l : List Query) (qid : Nat) (f : Query → Query)
    (hf : ∀ q, (f q).qid = q.qid) :
    (l.map (fun q => if q.qid == qid then f q else q)).find? (fun q => q.qid == qid) =
      (l.find? (fun q => q.qid == qid)).map f := by
  induction l with
  | nil => rfl
  | cons a l ih =>
    by_cases ha : a.qid = qid
    · have h1 : (a.qid == qid) = true := beq_iff_eq.mpr ha
      have h2 : ((f a).qid == qid) = true := by rw [hf a]; exact h1
      simp only [List.map_cons, h1, if_true, List.find?_cons, h2, Option.map_some']
    · have h1 : (a.qid == qid) = false := by simp [ha]
      simp only [List.map_cons, h1, Bool.false_eq_true, if_false, List.find?_cons]
      exact ih

theorem find?_update_other (l : List Query) (qid qid2 : Nat) (f : Query → Query)
    (hf : ∀ q, (f q).qid = q.qid) (hne : qid2 ≠ qid) :
    (l.map (fun q => if q.qid == qid then f q else q)).find? (fun q => q.qid == qid2) =
      l.find? (fun q => q.qid == qid2) := by
  induction l with
  | nil => rfl
  | cons a l ih =>
    by_cases ha : a.qid = qid
    · have h1 : (a.qid == qid) = true := beq_iff_eq.mpr ha
      have hb : a.qid ≠ qid2 := fun h => hne (h ▸ ha ▸ rfl)
      have h2 : (a.qid == qid2) = false := by simp [hb]
      have h3 : ((f a).qid == qid2) = false := by rw [hf a]; exact h2
      simp only [List.map_cons, h1, if_true, List.find?_cons, h2, h3]
      exact ih
    · have h1 : (a.qid == qid) = false := by simp [ha]
      simp only [List.map_cons, h1, Bool.false_eq_true, if_false, List.find?_cons]
      by_cases hb : a.qid = qid2
      · simp only [beq_iff_eq.mpr hb]
      · have h2 : (a.qid == qid2) = false := by simp [hb]
        simp only [h2]
        exact ih

theorem findQuery_updateQuery_self (st : EngineState) (qid : Nat) (f : Query → Query)
    (hf : ∀ q, (f q).qid = q.qid) :
    (updateQuery st qid f).findQuery qid = (st.findQuery qid).map f :=
  find?_update_self st.queries qid f hf

theorem findQuery_updateQuery_other (st : EngineState) (qid qid2 : Nat)
    (f : Query → Query) (hf : ∀ q, (f q).qid = q.qid) (hne : qid2 ≠ qid) :
    (updateQuery st qid f).findQuery qid2 = st.findQuery qid2 :=
  find?_update_other st.queries qid qid2 f hf hne

theorem getD_set_eq {α : Type} (l : List α) (i : Nat) (v d : α)
    (h : i < l.length) : (l.set i v).getD i d = v := by
  induction l generalizing i with
  | nil => simp at h
  | cons a l ih =>
    cases i with
    | zero => rfl
    | succ n =>
      simp only [List.set]
      exact ih n (by simpa using h)

theorem getD_set_ne {α : Type} (l : List α) (i j : Nat) (v d : α)
    (h : i ≠ j) : (l.set j v).getD i d = l.getD i d := by
  induction l generalizing i j with
  | nil => rfl
  | cons a l ih =>
    cases j with
    | zero =>
      cases i with
      | zero => exact absurd rfl h
      | succ n => rfl
    | succ m =>
      cases i with
      | zero => rfl
      | succ n =>
        simp only [List.set, List.getD_cons_succ]
        exact ih n m (fun hc => h (by rw [hc]))

theorem getD_take_lt {α : Type} (l : List α) (n i : Nat) (d : α)
    (h : i < n) : (l.take n).getD i d = l.getD i d := by
  induction l generalizing n i with
  | nil => simp
  | cons a l ih =>
    cases n with
    | zero => omega
    | succ m =>
      cases i with
      | zero => rfl
      | succ k =>
        simp only [List.take, List.getD_cons_succ]
        exact ih m k (by omega)

/-! ## Claim theorems -/

/-! ### Concrete fixtures used by witnesses -/

def exAddr : AresAddr :=
  { family := .inet, addrV4 := [127, 0, 0, 1], addrV6 := List.replicate 16 0,
    udp_port := htons 53, tcp_port := htons 53 }

def exServer0 : Server :=
  { idx := 0, addr := exAddr, connections := [0], tcp_conn := none,
    tcp_connection_generation := 1, tcp_send_len := 0 }

def exServer1 : Server :=
  { idx := 1, addr := { exAddr with addrV4 := [10, 0, 0, 2] }, connections := [],
    tcp_conn := none, tcp_connection_generation := 2, tcp_send_len := 0 }

def exChannel : Channel :=
  { flagEDNS := false, flagIGNTC := false, flagNOCHECKRESP := false,
    timeout := 1000, tries := 3, udp_max_queries := 0, ednspsz := 1280,
    servers := [exServer0, exServer1] }

def exQuery : Query :=
  { qid := 7, timeout := { sec := 5, usec := 0 },
    tcpbuf := [0, 28] ++ List.replicate 28 0, tcplen := 30, qlen := 28,
    try_count := 0, server := 0, server_info := [default, default],
    using_tcp := false, error_status := .etimeout, timeouts := 0,
    no_retries := false, conn := some 0 }

def exConn : Connection :=
  { id := 0, serverIdx := 0, fd := 10, is_tcp := false, total_queries := 1,
    queries_to_conn := [7] }

def exState : EngineState :=
  { channel := exChannel, conns := [exConn], connnode_by_socket := [(10, 0)],
    nextConnId := 1, nextFd := 11, queries := [exQuery], ended := [],
    openPlan := [], writePlan := [] }

/-! ### Claim C7 -/

/-- Claim C7: `skip_server(query, server)` sets
`query.server_info[server.idx].skip_server` to true if and only if the
channel has more than one configured server; with a single server the
function leaves the query unchanged, so the query may retry the same
server. -/
theorem skip_server_iff_multiple (ch : Channel) (q : Query) (srvIdx : Nat)
    (hidx : srvIdx < q.server_info.length) :
    (1 < ch.nservers →
      ((skip_server ch q srvIdx).server_info.getD srvIdx default).skip_server = true)
    ∧ (¬ 1 < ch.nservers → skip_server ch q srvIdx = q) := by
  constructor
  · intro h
    simp only [skip_server, if_pos h]
    rw [getD_set_eq _ _ _ _ hidx]
  · intro h
    simp only [skip_server, if_neg h]

/-- Witness for C7 on a two-server channel. -/
theorem skip_server_iff_multiple_witness :
    ((skip_server exChannel exQuery 0).server_info.getD 0 default).skip_server = true :=
  (skip_server_iff_multiple exChannel exQuery 0 (by decide)).1 (by decide)

/-! ### Claim C2 -/

theorem tvUsecTotal_timeadd (t : Timeval) (ms : Nat) :
    tvUsecTotal (timeadd t ms) = tvUsecTotal t + ms * 1000 := by
  have h : 1000 * (ms / 1000) + ms % 1000 = ms := Nat.div_add_mod ms 1000
  dsimp only [timeadd, tvUsecTotal]
  split_ifs <;> push_cast <;> nlinarith [h]

theorem pow_split_31 (shift : Nat) (h31 : shift ≤ 31) :
    2 ^ (31 - shift) * 2 ^ shift = 2 ^ 31 := by
  rw [← pow_add]
  congr 1
  omega

theorem sendQueryTimeplus_spec (timeout try_count nservers : Nat) :
    (try_count / nservers ≤ 31 →
      timeout * 2 ^ (try_count / nservers) < 2 ^ 31 →
      sendQueryTimeplus timeout try_count nservers =
        timeout * 2 ^ (try_count / nservers))
    ∧ (¬ (try_count / nservers ≤ 31 ∧
          timeout * 2 ^ (try_count / nservers) < 2 ^ 31) →
      sendQueryTimeplus timeout try_count nservers = timeout) := by
  have hpow : (0:Nat) < 2 ^ (try_count / nservers) :=
    Nat.pos_pow_of_pos _ (by norm_num)
  constructor
  · intro h31 hov
    have hlt : timeout < 2 ^ (31 - try_count / nservers) := by
      by_contra hge
      push_neg at hge
      have hbig : 2 ^ 31 ≤ timeout * 2 ^ (try_count / nservers) := by
        calc (2:Nat) ^ 31 = 2 ^ (31 - try_count / nservers) * 2 ^ (try_count / nservers) :=
              (pow_split_31 _ h31).symm
          _ ≤ timeout * 2 ^ (try_count / nservers) := Nat.mul_le_mul_right _ hge
      omega
    have hz : timeout >>> (31 - try_count / nservers) = 0 := by
      rw [Nat.shiftRight_eq_div_pow]
      exact Nat.div_eq_of_lt hlt
    have hcond : (decide (try_count / nservers ≤ 31) &&
        (timeout >>> (31 - try_count / nservers) == 0)) = true := by
      simp [h31, hz]
    dsimp only [sendQueryTimeplus]
    rw [if_pos hcond, Nat.shiftLeft_eq]
  · intro hn
    dsimp only [sendQueryTimeplus]
    by_cases h31 : try_count / nservers ≤ 31
    · have hov : ¬ timeout * 2 ^ (try_count / nservers) < 2 ^ 31 :=
        fun h => hn ⟨h31, h⟩
      have hge : 2 ^ (31 - try_count / nservers) ≤ timeout := by
        by_contra hlt
        push_neg at hlt
        have : timeout * 2 ^ (try_count / nservers) <
            2 ^ (31 - try_count / nservers) * 2 ^ (try_count / nservers) :=
          Nat.mul_lt_mul_of_lt_of_le hlt (Nat.le_refl _) hpow
        rw [pow_split_31 _ h31] at this
        exact hov this
      have hz : timeout >>> (31 - try_count / nservers) ≠ 0 := by
        rw [Nat.shiftRight_eq_div_pow]
        have := Nat.div_le_div_right (c := 2 ^ (31 - try_count / nservers)) hge
        rw [Nat.div_self (Nat.pos_pow_of_pos _ (by norm_num))] at this
        omega
      have hcond : (decide (try_count / nservers ≤ 31) &&
          (timeout >>> (31 - try_count / nservers) == 0)) = false := by
        simp [hz]
      rw [if_neg (by simp [hcond])]
    · have hcond : (decide (try_count / nservers ≤ 31) &&
          (timeout >>> (31 - try_count / nservers) == 0)) = false := by
        simp [h31]
      rw [if_neg (by simp [hcond])]

/-- Claim C2: after a successful enqueue, `ares__send_query` re-arms the
query's deadline to `now + timeplus` milliseconds, where `timeplus` is the
channel timeout shifted left by `try_count / nservers` whenever that shift
stays below the 32-bit `int` sign bit (all shifted-out bits zero, the
source's overflow check) and the unchanged channel timeout otherwise; with
`timeout = 1000`, `nservers = 2` the six successive attempts use 1000,
1000, 2000, 2000, 4000, 4000 ms. -/
theorem send_query_deadline (st : EngineState) (qid cid : Nat) (now : Timeval)
    (q : Query) (hq : st.findQuery qid = some q) :
    ((sendQueryEnqueue st qid cid now).findQuery qid =
      some { q with
        timeout :=
          timeadd now (sendQueryTimeplus st.channel.timeout q.try_count st.channel.nservers),
        conn := some cid })
    ∧ tvUsecTotal
        (timeadd now (sendQueryTimeplus st.channel.timeout q.try_count st.channel.nservers)) =
      tvUsecTotal now +
        (sendQueryTimeplus st.channel.timeout q.try_count st.channel.nservers) * 1000
    ∧ ((q.try_count / st.channel.nservers ≤ 31 →
        st.channel.timeout * 2 ^ (q.try_count / st.channel.nservers) < 2 ^ 31 →
        sendQueryTimeplus st.channel.timeout q.try_count st.channel.nservers =
          st.channel.timeout * 2 ^ (q.try_count / st.channel.nservers))
      ∧ (¬ (q.try_count / st.channel.nservers ≤ 31 ∧
            st.channel.timeout * 2 ^ (q.try_count / st.channel.nservers) < 2 ^ 31) →
        sendQueryTimeplus st.channel.timeout q.try_count st.channel.nservers =
          st.channel.timeout))
    ∧ [0, 1, 2, 3, 4, 5].map (fun t => sendQueryTimeplus 1000 t 2) =
        [1000, 1000, 2000, 2000, 4000, 4000] := by
  refine ⟨?_, tvUsecTotal_timeadd now _, sendQueryTimeplus_spec _ _ _, by decide⟩
  have hconn : ∀ st2 : EngineState,
      (updateConn st2 cid (fun c =>
        { c with queries_to_conn := c.queries_to_conn ++ [qid],
                 total_queries := c.total_queries + 1 })).findQuery qid =
      st2.findQuery qid := fun _ => rfl
  have hdet : (detachConnNode st qid).findQuery qid = st.findQuery qid := rfl
  unfold sendQueryEnqueue
  rw [hq]
  dsimp only
  rw [findQuery_updateQuery_self]
  · rw [hconn, hdet, hq]
    rfl
  · intro q'
    rfl

/-- Witness for C2 on the concrete fixture state. -/
theorem send_query_deadline_witness :
    (sendQueryEnqueue exState 7 0 { sec := 0, usec := 0 }).findQuery 7 =
      some { exQuery with
        timeout :=
          timeadd { sec := 0, usec := 0 }
            (sendQueryTimeplus exState.channel.timeout exQuery.try_count
              exState.channel.nservers),
        conn := some 0 } :=
  (send_query_deadline exState 7 0 { sec := 0, usec := 0 } exQuery rfl).1

/-! ### Claim C8 -/

theorem initStepTimeout_eq (ch : ChannelConfig) :
    initStepTimeout ch =
      { ch with timeout := if ch.timeout = 0 then DEFAULT_TIMEOUT else ch.timeout } := by
  unfold initStepTimeout
  split_ifs <;> rfl

theorem initStepTries_eq (ch : ChannelConfig) :
    initStepTries ch =
      { ch with tries := if ch.tries = 0 then DEFAULT_TRIES else ch.tries } := by
  unfold initStepTries
  split_ifs <;> rfl

theorem initStepNdots_eq (ch : ChannelConfig) :
    initStepNdots ch = { ch with ndots := if ch.ndots = 0 then 1 else ch.ndots } := by
  unfold initStepNdots
  split_ifs <;> rfl

theorem initStepUdpPort_eq (ch : ChannelConfig) :
    initStepUdpPort ch =
      { ch with udp_port :=
          if ch.udp_port = 0 then htons NAMESERVER_PORT else ch.udp_port } := by
  unfold initStepUdpPort
  split_ifs <;> rfl

theorem initStepTcpPort_eq (ch : ChannelConfig) :
    initStepTcpPort ch =
      { ch with tcp_port :=
          if ch.tcp_port = 0 then htons NAMESERVER_PORT else ch.tcp_port } := by
  unfold initStepTcpPort
  split_ifs <;> rfl

theorem initStepEdnspsz_eq (ch : ChannelConfig) :
    initStepEdnspsz ch =
      { ch with ednspsz := if ch.ednspsz = 0 then EDNSPACKETSZ else ch.ednspsz } := by
  unfold initStepEdnspsz
  split_ifs <;> rfl

theorem initStepServers_eq (ch : ChannelConfig) :
    initStepServers ch =
      { ch with servers :=
          if ch.servers.length = 0 then [loopbackServerAddr] else ch.servers } := by
  unfold initStepServers
  split_ifs <;> rfl

theorem initStepDomains_eq (hostname : List Char) (ch : ChannelConfig) :
    initStepDomains hostname ch =
      { ch with domains :=
          if ch.domains.length = 0 then init_domains_default hostname ch.domains
          else ch.domains } := by
  unfold initStepDomains
  split_ifs <;> rfl

theorem initStepSortlist_eq (ch : ChannelConfig) :
    initStepSortlist ch =
      { ch with sortlist := if ch.nsort = 0 then [] else ch.sortlist } := by
  unfold initStepSortlist
  split_ifs <;> rfl

theorem initStepLookups_eq (ch : ChannelConfig) :
    initStepLookups ch =
      { ch with lookups :=
          if ch.lookups = none then some ['f', 'b'] else ch.lookups } := by
  unfold initStepLookups
  split_ifs <;> rfl

/-- Full characterization of `init_by_defaults`: every field left unset
receives its built-in default, every set field is kept. -/
theorem init_by_defaults_eq (hostname : List Char) (ch : ChannelConfig) :
    init_by_defaults hostname ch =
      { timeout := if ch.timeout = 0 then DEFAULT_TIMEOUT else ch.timeout,
        tries := if ch.tries = 0 then DEFAULT_TRIES else ch.tries,
        ndots := if ch.ndots = 0 then 1 else ch.ndots,
        udp_port := if ch.udp_port = 0 then htons NAMESERVER_PORT else ch.udp_port,
        tcp_port := if ch.tcp_port = 0 then htons NAMESERVER_PORT else ch.tcp_port,
        ednspsz := if ch.ednspsz = 0 then EDNSPACKETSZ else ch.ednspsz,
        servers := if ch.servers.length = 0 then [loopbackServerAddr] else ch.servers,
        domains :=
          if ch.domains.length = 0 then init_domains_default hostname ch.domains
          else ch.domains,
        nsort := ch.nsort,
        sortlist := if ch.nsort = 0 then [] else ch.sortlist,
        lookups := if ch.lookups = none then some ['f', 'b'] else ch.lookups } := by
  unfold init_by_defaults
  rw [initStepTimeout_eq, initStepTries_eq, initStepNdots_eq, initStepUdpPort_eq,
    initStepTcpPort_eq, initStepEdnspsz_eq, initStepServers_eq, initStepDomains_eq,
    initStepSortlist_eq, initStepLookups_eq]

/-- Claim C8: after `init_by_defaults`, every configuration field left
unset holds the built-in default — timeout 2000 ms, tries 3, ndots 1, UDP
and TCP port 53 in network byte order, EDNS size 1280, lookups "fb" — and
when no server was configured the server table holds exactly one IPv4
server 127.0.0.1; consequently at least one server is configured
afterwards. -/
theorem init_by_defaults_spec (hostname : List Char) (ch : ChannelConfig) :
    (ch.timeout = 0 → (init_by_defaults hostname ch).timeout = 2000)
    ∧ (ch.tries = 0 → (init_by_defaults hostname ch).tries = 3)
    ∧ (ch.ndots = 0 → (init_by_defaults hostname ch).ndots = 1)
    ∧ (ch.udp_port = 0 → (init_by_defaults hostname ch).udp_port = htons 53)
    ∧ (ch.tcp_port = 0 → (init_by_defaults hostname ch).tcp_port = htons 53)
    ∧ (ch.ednspsz = 0 → (init_by_defaults hostname ch).ednspsz = 1280)
    ∧ (ch.lookups = none → (init_by_defaults hostname ch).lookups = some ['f', 'b'])
    ∧ (ch.servers = [] → (init_by_defaults hostname ch).servers = [loopbackServerAddr])
    ∧ loopbackServerAddr.family = AddrFamily.inet
    ∧ loopbackServerAddr.addrV4 = [127, 0, 0, 1]
    ∧ 1 ≤ (init_by_defaults hostname ch).servers.length := by
  rw [init_by_defaults_eq]
  refine ⟨fun h => by simp [h, DEFAULT_TIMEOUT], fun h => by simp [h, DEFAULT_TRIES],
    fun h => by simp [h], fun h => by simp [h, NAMESERVER_PORT],
    fun h => by simp [h, NAMESERVER_PORT], fun h => by simp [h, EDNSPACKETSZ],
    fun h => by simp [h], fun h => by simp [h], by decide, by decide, ?_⟩
  by_cases hs : ch.servers.length = 0
  · simp [hs]
  · simp only [if_neg hs]
    omega

/-- Witness for C8 on the all-unset configuration. -/
theorem init_by_defaults_spec_witness :
    (init_by_defaults []
      { timeout := 0, tries := 0, ndots := 0, udp_port := 0, tcp_port := 0,
        ednspsz := 0, servers := [], domains := [], nsort := 0, sortlist := [],
        lookups := none }).timeout = 2000 :=
  (init_by_defaults_spec []
    { timeout := 0, tries := 0, ndots := 0, udp_port := 0, tcp_port := 0,
      ednspsz := 0, servers := [], domains := [], nsort := 0, sortlist := [],
      lookups := none }).1 rfl

/-! ### Claim C5 -/

theorem detachConnNode_channel (st : EngineState) (qid : Nat) :
    (detachConnNode st qid).channel = st.channel := rfl

theorem detachConnNode_queries (st : EngineState) (qid : Nat) :
    (detachConnNode st qid).queries = st.queries := rfl

theorem detachConnNode_ended (st : EngineState) (qid : Nat) :
    (detachConnNode st qid).ended = st.ended := rfl

theorem getD_after_edns_sets (l : List Nat) (b0 b1 n : Nat)
    (hn : 13 < n) (hl : 13 < l.length) :
    (((((l.set 0 b0).set 1 b1).set 12 0).set 13 0).take n).getD 0 0 = b0
    ∧ (((((l.set 0 b0).set 1 b1).set 12 0).set 13 0).take n).getD 1 0 = b1
    ∧ (((((l.set 0 b0).set 1 b1).set 12 0).set 13 0).take n).getD 12 0 = 0
    ∧ (((((l.set 0 b0).set 1 b1).set 12 0).set 13 0).take n).getD 13 0 = 0 := by
  refine ⟨?_, ?_, ?_, ?_⟩
  · rw [getD_take_lt _ _ _ _ (show (0:Nat) < n by omega),
      getD_set_ne _ _ _ _ _ (show (0:Nat) ≠ 13 by decide),
      getD_set_ne _ _ _ _ _ (show (0:Nat) ≠ 12 by decide),
      getD_set_ne _ _ _ _ _ (show (0:Nat) ≠ 1 by decide)]
    exact getD_set_eq _ _ _ _ (by omega)
  · rw [getD_take_lt _ _ _ _ (show (1:Nat) < n by omega),
      getD_set_ne _ _ _ _ _ (show (1:Nat) ≠ 13 by decide),
      getD_set_ne _ _ _ _ _ (show (1:Nat) ≠ 12 by decide)]
    exact getD_set_eq _ _ _ _ (by rw [List.length_set]; omega)
  · rw [getD_take_lt _ _ _ _ (show (12:Nat) < n by omega),
      getD_set_ne _ _ _ _ _ (show (12:Nat) ≠ 13 by decide)]
    exact getD_set_eq _ _ _ _ (by rw [List.length_set, List.length_set]; omega)
  · rw [getD_take_lt _ _ _ _ hn]
    exact getD_set_eq _ _ _ _
      (by rw [List.length_set, List.length_set, List.length_set]; omega)

/-- Claim C5: when the channel has EDNS enabled and a matching response
arrives with rcode FORMAT_ERROR and no OPT record in its additional
section, `process_answer` clears the channel's EDNS flag, reduces the
query's `tcplen` and `qlen` by `EDNSFIXEDSZ` (11), rewrites the two-byte
big-endian TCP length prefix to the reduced message length, zeroes the
header's ARCOUNT, and resubmits the query via `ares__send_query` without
invoking the callback. -/
theorem process_answer_edns_fallback (P : DnsParser) (fuel : Nat)
    (st : EngineState) (abuf : List Nat) (cid : Nat) (tcp : Bool) (now : Timeval)
    (conn : Connection) (rec : DnsRec) (q : Query)
    (hc : st.findConn cid = some conn)
    (hP : P abuf = some rec)
    (hq : st.findQuery rec.id = some q)
    (hsq : same_questions P ((q.tcpbuf.drop 2).take q.qlen) rec = true)
    (hedns : st.channel.flagEDNS = true)
    (hrc : rec.rcode = DnsRcode.formerr)
    (hopt : has_opt_rr rec = false)
    (hbuf : q.tcpbuf.length = q.tcplen)
    (hlen : 25 ≤ q.tcplen) :
    ∃ stMid : EngineState,
      stMid = updateQuery
        { detachConnNode st q.qid with
            channel := { st.channel with
              flagEDNS := Bool.xor st.channel.flagEDNS true } }
        q.qid ednsStripQuery
      ∧ processAnswerF P fuel st abuf cid tcp now =
          (match sendQueryF fuel stMid q.qid now with
           | none => none
           | some (st5, _) => some (checkCleanupConn st5 conn.fd, PAOutcome.ednsRetry))
      ∧ stMid.channel.flagEDNS = false
      ∧ stMid.ended = st.ended
      ∧ stMid.findQuery q.qid = (st.findQuery q.qid).map ednsStripQuery
      ∧ (ednsStripQuery q).tcplen = q.tcplen - EDNSFIXEDSZ
      ∧ (ednsStripQuery q).qlen = q.qlen - EDNSFIXEDSZ
      ∧ (ednsStripQuery q).tcpbuf.length = q.tcplen - EDNSFIXEDSZ
      ∧ (ednsStripQuery q).tcpbuf.getD 0 0 =
          (((q.tcplen - 2) - EDNSFIXEDSZ) >>> 8) &&& 0xff
      ∧ (ednsStripQuery q).tcpbuf.getD 1 0 = ((q.tcplen - 2) - EDNSFIXEDSZ) &&& 0xff
      ∧ (ednsStripQuery q).tcpbuf.getD 12 0 = 0
      ∧ (ednsStripQuery q).tcpbuf.getD 13 0 = 0 := by
  have hqid : q.qid = rec.id := by
    have := List.find?_some hq
    simpa using this
  refine ⟨_, rfl, ?_, ?_, ?_, ?_, ?_, ?_, ?_, ?_, ?_, ?_, ?_⟩
  · simp only [processAnswerF, hc, hP, hqid, hq, hsq, Bool.not_true,
      Bool.false_eq_true, if_false]
    have hcond : ((detachConnNode st rec.id).channel.flagEDNS &&
        rec.rcode == DnsRcode.formerr && !has_opt_rr rec) = true := by
      simp [detachConnNode, hedns, hrc, hopt]
    rw [if_pos hcond]
    simp only [detachConnNode_channel]
  · simp only [detachConnNode_channel] at *
    have : (updateQuery
        { detachConnNode st q.qid with
            channel := { st.channel with
              flagEDNS := Bool.xor st.channel.flagEDNS true } }
        q.qid ednsStripQuery).channel.flagEDNS =
        Bool.xor st.channel.flagEDNS true := rfl
    rw [this, hedns]
    rfl
  · rfl
  · rw [findQuery_updateQuery_self]
    · rfl
    · intro q'
      rfl
  · simp [ednsStripQuery, EDNSFIXEDSZ]
  · simp [ednsStripQuery, EDNSFIXEDSZ]
  · simp only [ednsStripQuery, EDNSFIXEDSZ]
    rw [List.length_take]
    simp only [List.length_set, hbuf]
    omega
  · simp only [ednsStripQuery, EDNSFIXEDSZ]
    exact (getD_after_edns_sets q.tcpbuf _ _ _ (by omega) (by omega)).1
  · simp only [ednsStripQuery, EDNSFIXEDSZ]
    exact (getD_after_edns_sets q.tcpbuf _ _ _ (by omega) (by omega)).2.1
  · simp only [ednsStripQuery, EDNSFIXEDSZ]
    exact (getD_after_edns_sets q.tcpbuf _ _ _ (by omega) (by omega)).2.2.1
  · simp only [ednsStripQuery, EDNSFIXEDSZ]
    exact (getD_after_edns_sets q.tcpbuf _ _ _ (by omega) (by omega)).2.2.2

/-! ### Witness fixtures for the `process_answer` claims -/

def exQuestions : List DnsQuestion := [{ qname := ['w'], qtype := 1, qclass := 1 }]

/-- Parsed form of the answer packet `[9, 9, 9]` used by the witnesses. -/
def ex5Rec : DnsRec :=
  { id := 7, tcFlag := false, rcode := .formerr, questions := exQuestions,
    addRRTypes := [] }

/-- Parsed form of the request buffer used by the witnesses. -/
def exQRec : DnsRec :=
  { id := 7, tcFlag := false, rcode := .noerror, questions := exQuestions,
    addRRTypes := [ARES_REC_TYPE_OPT] }

def ex5Parser : DnsParser := fun b =>
  if b == [9, 9, 9] then some ex5Rec
  else if b == List.replicate 28 0 then some exQRec
  else none

def ex5Query : Query :=
  { exQuery with tcpbuf := [0, 28] ++ List.replicate 28 0, tcplen := 30, qlen := 28 }

def ex5State : EngineState :=
  { exState with channel := { exChannel with flagEDNS := true },
                 queries := [ex5Query] }

/-- Witness for C5: on the concrete fixture the channel-wide EDNS flag is
cleared by the fallback. -/
theorem process_answer_edns_fallback_witness :
    (updateQuery
      { detachConnNode ex5State 7 with
          channel := { ex5State.channel with
            flagEDNS := Bool.xor ex5State.channel.flagEDNS true } }
      7 ednsStripQuery).channel.flagEDNS = false := by
  obtain ⟨stMid, h1, _, h3, _⟩ :=
    process_answer_edns_fallback ex5Parser 5 ex5State [9, 9, 9] 0 false
      { sec := 0, usec := 0 } exConn ex5Rec ex5Query rfl rfl rfl (by decide)
      rfl rfl (by decide) (by decide) (by decide)
  rw [h1] at h3
  exact h3

/-! ### Claim C6 -/

/-- Claim C6 (amended): a response received over UDP whose TC bit is set or
whose length exceeds `packetsz` (`ednspsz` when EDNS is enabled, else 512),
on a channel without IGNTC, is never delivered to the callback; when the
query is not already using TCP, `using_tcp` is set and the query is
resubmitted via `ares__send_query` (a query already marked `using_tcp` is
not resubmitted — see the counterexample). -/
theorem process_answer_truncation_upgrade (P : DnsParser) (fuel : Nat)
    (st : EngineState) (abuf : List Nat) (cid : Nat) (now : Timeval)
    (conn : Connection) (rec : DnsRec) (q : Query)
    (hc : st.findConn cid = some conn)
    (hP : P abuf = some rec)
    (hq : st.findQuery rec.id = some q)
    (hsq : same_questions P ((q.tcpbuf.drop 2).take q.qlen) rec = true)
    (hedns : (st.channel.flagEDNS && rec.rcode == DnsRcode.formerr &&
        !has_opt_rr rec) = false)
    (htrunc : (rec.tcFlag ||
        decide (abuf.length >
          (if st.channel.flagEDNS then st.channel.ednspsz else PACKETSZ))) = true)
    (higntc : st.channel.flagIGNTC = false)
    (hutcp : q.using_tcp = false) :
    processAnswerF P fuel st abuf cid false now =
      (match sendQueryF fuel
          (updateQuery (detachConnNode st q.qid) q.qid
            (fun qq => { qq with using_tcp := true })) q.qid now with
       | none => none
       | some (st5, _) => some (checkCleanupConn st5 conn.fd, PAOutcome.truncRetry))
    ∧ (updateQuery (detachConnNode st q.qid) q.qid
        (fun qq => { qq with using_tcp := true })).findQuery q.qid =
      some { q with using_tcp := true } := by
  have hqid : q.qid = rec.id := by
    have := List.find?_some hq
    simpa using this
  constructor
  · have hcond1 : ¬ ((st.channel.flagEDNS && rec.rcode == DnsRcode.formerr &&
        !has_opt_rr rec) = true) := by
      simp [hedns]
    have hcond2 : ((rec.tcFlag ||
        decide (abuf.length >
          if st.channel.flagEDNS = true then st.channel.ednspsz else PACKETSZ)) &&
        !false && !st.channel.flagIGNTC) = true := by
      rw [higntc]
      simpa using htrunc
    have hcond3 : (!q.using_tcp) = true := by
      simp [hutcp]
    simp only [processAnswerF, hc, hP, hqid, hq, hsq, Bool.not_true,
      Bool.false_eq_true, if_false, detachConnNode_channel]
    rw [if_neg hcond1, if_pos hcond2, if_pos hcond3]
  · rw [findQuery_updateQuery_self]
    · rw [show (detachConnNode st q.qid).findQuery q.qid = st.findQuery q.qid from rfl,
        hqid, hq]
      simp only [Option.map_some']
      rw [← hqid]
    · intro q'
      rfl

def cx6Rec : DnsRec :=
  { id := 7, tcFlag := true, rcode := .noerror, questions := exQuestions,
    addRRTypes := [] }

def cx6Parser : DnsParser := fun b =>
  if b == [9, 9, 9] then some cx6Rec
  else if b == List.replicate 28 0 then some exQRec
  else none

/-- A query that already switched to TCP but whose earlier UDP request now
receives a truncated duplicate reply. -/
def cx6Query : Query := { ex5Query with using_tcp := true }

def cx6State : EngineState := { exState with queries := [cx6Query] }

/-- Counterexample for C6 as frozen: a truncated reply arrives over UDP
(TC bit set, channel without IGNTC) for a query whose `using_tcp` is
already true; the packet is not delivered, but contrary to the claim the
query is NOT resubmitted via `ares__send_query`: the state keeps the query
untouched (same deadline, same connection, no callback fired) and the
disposition is `truncDrop`. -/
theorem process_answer_truncation_counterexample :
    processAnswerF cx6Parser 5 cx6State [9, 9, 9] 0 false { sec := 0, usec := 0 } =
      some (detachConnNode cx6State 7, PAOutcome.truncDrop)
    ∧ cx6Rec.tcFlag = true
    ∧ cx6State.channel.flagIGNTC = false
    ∧ (detachConnNode cx6State 7).findQuery 7 = some cx6Query
    ∧ (detachConnNode cx6State 7).ended = [] := by decide

/-- Witness fixture for the amended C6: same truncated reply, but the
query has not yet switched to TCP. -/
def wt6State : EngineState := { exState with queries := [ex5Query] }

/-- Witness for C6 (amended): at a concrete state with `using_tcp` still
false, the truncated UDP reply is not delivered; `using_tcp` is set and
the query is resubmitted through `ares__send_query`. -/
theorem process_answer_truncation_upgrade_witness :
    ex5Query.using_tcp = false
    ∧ cx6Rec.tcFlag = true
    ∧ (processAnswerF cx6Parser 5 wt6State [9, 9, 9] 0 false
          { sec := 0, usec := 0 } =
        (match sendQueryF 5
            (updateQuery (detachConnNode wt6State ex5Query.qid) ex5Query.qid
              (fun qq => { qq with using_tcp := true })) ex5Query.qid
            { sec := 0, usec := 0 } with
         | none => none
         | some (st5, _) =>
            some (checkCleanupConn st5 exConn.fd, PAOutcome.truncRetry))
       ∧ (updateQuery (detachConnNode wt6State ex5Query.qid) ex5Query.qid
            (fun qq => { qq with using_tcp := true })).findQuery ex5Query.qid =
          some { ex5Query with using_tcp := true }) :=
  ⟨rfl, rfl,
    process_answer_truncation_upgrade cx6Parser 5 wt6State [9, 9, 9] 0
      { sec := 0, usec := 0 } exConn cx6Rec ex5Query
      (by decide) (by decide) (by decide) (by decide) (by decide) (by decide)
      (by decide) (by decide)⟩


/-! ### Claim C1 -/

/-- Claim C1: `process_answer` delivers a response to a query's callback
only when the payload parses as a DNS message, its id matches a live query
in `queries_by_qid`, and the response's question section equals the
request's; a payload that fails to parse, matches no live query, or
carries a different question section is dropped silently with the state —
and hence the in-flight query — completely unchanged; and over UDP a
datagram whose source address differs from the server's address is dropped
before `process_answer` is reached, again with the state unchanged. -/
theorem process_answer_validation (P : DnsParser) (fuel : Nat)
    (st : EngineState) (abuf : List Nat) (cid : Nat) (tcp : Bool)
    (now : Timeval) (conn : Connection)
    (hc : st.findConn cid = some conn) :
    (∀ st', processAnswerF P fuel st abuf cid tcp now =
        some (st', PAOutcome.delivered) →
      ∃ rec q2, P abuf = some rec ∧ st.findQuery rec.id = some q2 ∧
        same_questions P ((q2.tcpbuf.drop 2).take q2.qlen) rec = true)
    ∧ (P abuf = none →
      processAnswerF P fuel st abuf cid tcp now = some (st, PAOutcome.dropParseFail))
    ∧ (∀ rec, P abuf = some rec → st.findQuery rec.id = none →
      processAnswerF P fuel st abuf cid tcp now = some (st, PAOutcome.dropNoQuery))
    ∧ (∀ rec q2, P abuf = some rec → st.findQuery rec.id = some q2 →
      same_questions P ((q2.tcpbuf.drop 2).take q2.qlen) rec = false →
      processAnswerF P fuel st abuf cid tcp now =
        some (st, PAOutcome.dropWrongQuestions))
    ∧ (∀ fromAddr server, st.channel.servers[conn.serverIdx]? = some server →
      same_address fromAddr server.addr = false →
      udpReadDatagram P fuel st fromAddr abuf cid now = some (st, none)) := by
  refine ⟨?_, ?_, ?_, ?_, ?_⟩
  · intro st' h
    cases hP : P abuf with
    | none => simp [processAnswerF, hc, hP] at h
    | some rec =>
      cases hq : st.findQuery rec.id with
      | none => simp [processAnswerF, hc, hP, hq] at h
      | some q2 =>
        by_cases hsq : same_questions P ((q2.tcpbuf.drop 2).take q2.qlen) rec = true
        · exact ⟨rec, q2, rfl, hq, hsq⟩
        · have hsq' : same_questions P ((q2.tcpbuf.drop 2).take q2.qlen) rec = false :=
            Bool.eq_false_iff.mpr hsq
          simp [processAnswerF, hc, hP, hq, hsq'] at h
  · intro hP
    simp [processAnswerF, hc, hP]
  · intro rec hP hq
    simp [processAnswerF, hc, hP, hq]
  · intro rec q2 hP hq hsq
    simp [processAnswerF, hc, hP, hq, hsq]
  · intro fromAddr server hsrv haddr
    simp [udpReadDatagram, hc, hsrv, haddr]

/-- Witness for C1: a payload that fails to parse is dropped silently and
the state is untouched. -/
theorem process_answer_validation_witness :
    processAnswerF (fun _ => none) 3 exState [1, 2, 3] 0 false
      { sec := 0, usec := 0 } = some (exState, PAOutcome.dropParseFail) :=
  (process_answer_validation (fun _ => none) 3 exState [1, 2, 3] 0 false
    { sec := 0, usec := 0 } exConn rfl).2.1 rfl

/-! ### Claim C3 -/

/-- The candidate scan of `next_server` computes exactly the first
acceptable candidate of the declarative specification, for any
sufficient fuel, when `no_retries` is not set. -/
theorem nextServerScan_eq_firstAcceptable (ch : Channel) (u : Bool)
    (sinfo : List QueryServerInfo) :
    ∀ fuel t s, ch.nservers * ch.tries - t ≤ fuel →
      nextServerScan ch false u sinfo fuel t s = firstAcceptable ch u sinfo t s := by
  intro fuel
  induction fuel with
  | zero =>
    intro t s h
    have hm : ch.nservers * ch.tries - (t + 1) = 0 := by omega
    unfold nextServerScan firstAcceptable
    rw [hm]
    simp
  | succ fuel ih =>
    intro t s h
    rw [nextServerScan]
    by_cases hguard : t + 1 < ch.nservers * ch.tries
    · have hg : (decide (t + 1 < ch.nservers * ch.tries) && !false) = true := by
        simp [hguard]
      rw [if_pos hg]
      have hm : ch.nservers * ch.tries - (t + 1) =
          (ch.nservers * ch.tries - (t + 2)) + 1 := by omega
      by_cases hacc :
          acceptableCandidate ch u sinfo ((s + 1) % ch.nservers) = true
      · rw [if_pos hacc]
        unfold firstAcceptable
        rw [hm, List.range_succ_eq_map, List.find?_cons_of_pos _ (by simpa using hacc)]
        simp
      · rw [if_neg (by simp [hacc])]
        rw [ih (t + 1) ((s + 1) % ch.nservers) (by omega)]
        unfold firstAcceptable
        rw [hm, List.range_succ_eq_map,
          List.find?_cons_of_neg _ (by simpa using hacc), List.find?_map,
          Option.map_map]
        have hidx : ∀ i : Nat,
            ((s + 1) % ch.nservers + 1 + i) % ch.nservers =
              (s + 1 + Nat.succ i) % ch.nservers := by
          intro i
          rw [add_assoc, Nat.mod_add_mod]
          congr 1
          omega
        have hpeq : (fun i => acceptableCandidate ch u sinfo
              (((s + 1) % ch.nservers + 1 + i) % ch.nservers)) =
            ((fun i => acceptableCandidate ch u sinfo
              ((s + 1 + i) % ch.nservers)) ∘ Nat.succ) := by
          funext i
          simp only [Function.comp_apply]
          rw [hidx i]
        have hgeq : (fun i => (t + 1 + 1 + i,
              ((s + 1) % ch.nservers + 1 + i) % ch.nservers)) =
            ((fun i => (t + 1 + i, (s + 1 + i) % ch.nservers)) ∘ Nat.succ) := by
          funext i
          simp only [Function.comp_apply]
          rw [hidx i]
          simp only [Prod.mk.injEq]
          exact ⟨by omega, trivial⟩
        rw [hpeq, hgeq]
    · have hg : (decide (t + 1 < ch.nservers * ch.tries) && !false) = false := by
        have : decide (t + 1 < ch.nservers * ch.tries) = false := by
          simp
          omega
        rw [this]
        rfl
      rw [if_neg (by rw [hg]; simp)]
      have hm : ch.nservers * ch.tries - (t + 1) = 0 := by omega
      unfold firstAcceptable
      rw [hm]
      simp

/-- `find?` over `range m`: a hit is in range, satisfies the predicate,
and every earlier index fails it. -/
theorem find?_range_spec {p : Nat → Bool} :
    ∀ {m i : Nat}, (List.range m).find? p = some i →
      i < m ∧ p i = true ∧ ∀ j < i, p j = false := by
  intro m
  induction m with
  | zero =>
    intro i h
    rw [List.range_zero] at h
    simp [List.find?] at h
  | succ m ih =>
    intro i h
    rw [List.range_succ, List.find?_append] at h
    cases hm : (List.range m).find? p with
    | some i0 =>
      rw [hm] at h
      rw [show (some i0).or ((List.find? p [m])) = some i0 from rfl] at h
      simp only [Option.some.injEq] at h
      obtain ⟨hlt, hp, hall⟩ := ih hm
      subst h
      exact ⟨by omega, hp, hall⟩
    | none =>
      rw [hm] at h
      simp only [Option.none_or] at h
      have hall := List.find?_eq_none.mp hm
      have : i = m ∧ p m = true := by
        cases hpm : p m with
        | true =>
          rw [List.find?_cons_of_pos _ hpm] at h
          simp at h
          exact ⟨h.symm, rfl⟩
        | false =>
          rw [List.find?_cons_of_neg _ (by simp [hpm])] at h
          simp at h
      obtain ⟨hi, hpm⟩ := this
      subst hi
      refine ⟨by omega, hpm, fun j hj => ?_⟩
      have := hall j (List.mem_range.mpr hj)
      simpa using this

/-- Claim C3 (amended: the claim as frozen omits the `no_retries`
cancellation exit, see `next_server_no_retries_counterexample`): for a
query without `no_retries`, `next_server` advances `try_count` and the
server index modulo `nservers` until `try_count` reaches
`nservers * tries`, skipping every candidate whose `skip_server` flag is
set and, for a TCP query, every candidate whose current connection
generation equals the one recorded for it; it hands the first acceptable
candidate to `ares__send_query`, and when no candidate remains it ends the
query with its accumulated `error_status`.  `firstAcceptable` is the
declarative "first acceptable candidate" and `acceptableCandidate` the
skip test; conjunct 3 spells out what a hit means. -/
theorem next_server_first_acceptable (fuel : Nat) (st : EngineState)
    (qid : Nat) (now : Timeval) (q : Query)
    (hq : st.findQuery qid = some q)
    (hnr : q.no_retries = false) :
    (∀ t' s',
      firstAcceptable st.channel q.using_tcp q.server_info q.try_count q.server =
        some (t', s') →
      nextServerF (fuel + 1) st qid now =
        sendQueryF fuel
          (updateQuery st qid (fun qq => { qq with try_count := t', server := s' }))
          qid now)
    ∧ (firstAcceptable st.channel q.using_tcp q.server_info q.try_count q.server =
        none →
      nextServerF (fuel + 1) st qid now =
        some (endQuery st qid q.error_status, q.error_status))
    ∧ (∀ t' s',
      firstAcceptable st.channel q.using_tcp q.server_info q.try_count q.server =
        some (t', s') →
      q.try_count < t' ∧ t' < st.channel.nservers * st.channel.tries
      ∧ s' = (q.server + (t' - q.try_count)) % st.channel.nservers
      ∧ acceptableCandidate st.channel q.using_tcp q.server_info s' = true
      ∧ ∀ k, q.try_count < k → k < t' →
          acceptableCandidate st.channel q.using_tcp q.server_info
            ((q.server + (k - q.try_count)) % st.channel.nservers) = false) := by
  have hscan :
      nextServerScan st.channel q.no_retries q.using_tcp q.server_info
        (st.channel.nservers * st.channel.tries + 1) q.try_count q.server =
      firstAcceptable st.channel q.using_tcp q.server_info q.try_count q.server := by
    rw [hnr]
    exact nextServerScan_eq_firstAcceptable st.channel q.using_tcp q.server_info
      (st.channel.nservers * st.channel.tries + 1) q.try_count q.server (by omega)
  refine ⟨?_, ?_, ?_⟩
  · intro t' s' hfa
    simp only [nextServerF, hq]
    rw [hscan, hfa]
  · intro hfa
    simp only [nextServerF, hq]
    rw [hscan, hfa]
  · intro t' s' hfa
    unfold firstAcceptable at hfa
    cases hfind : (List.range
        (st.channel.nservers * st.channel.tries - (q.try_count + 1))).find?
        (fun i => acceptableCandidate st.channel q.using_tcp q.server_info
          ((q.server + 1 + i) % st.channel.nservers)) with
    | none => rw [hfind] at hfa; simp at hfa
    | some i =>
      rw [hfind] at hfa
      simp only [Option.map_some', Option.some.injEq, Prod.mk.injEq] at hfa
      obtain ⟨ht', hs'⟩ := hfa
      obtain ⟨hlt, hp, hall⟩ := find?_range_spec hfind
      subst ht'
      refine ⟨by omega, by omega, ?_, ?_, ?_⟩
      · rw [← hs']
        congr 1
        omega
      · rw [← hs']
        exact hp
      · intro k hk1 hk2
        have hj := hall (k - q.try_count - 1) (by omega)
        have : (q.server + (k - q.try_count)) % st.channel.nservers =
            (q.server + 1 + (k - q.try_count - 1)) % st.channel.nservers := by
          congr 1
          omega
        rw [this]
        exact hj

/-- Witness for C3 on the fixture state: the first acceptable candidate is
server 1 at try 1, and `next_server` hands exactly that updated query to
`ares__send_query`. -/
theorem next_server_first_acceptable_witness :
    nextServerF 6 exState 7 { sec := 0, usec := 0 } =
      sendQueryF 5
        (updateQuery exState 7 (fun qq => { qq with try_count := 1, server := 1 }))
        7 { sec := 0, usec := 0 } :=
  (next_server_first_acceptable 5 exState 7 { sec := 0, usec := 0 } exQuery
    rfl rfl).1 1 1 (by decide)

def cx3Query : Query := { exQuery with no_retries := true }

def cx3State : EngineState := { exState with queries := [cx3Query] }

/-- Counterexample for C3 as frozen: for a cancelled query
(`no_retries = true`) with `try_count` far below `nservers * tries` and an
acceptable candidate available (the declarative first-acceptable scan
yields server 1 at try 1), `next_server` does not call `ares__send_query`;
it ends the query immediately with its accumulated `error_status`. -/
theorem next_server_no_retries_counterexample :
    firstAcceptable cx3State.channel cx3Query.using_tcp cx3Query.server_info
      cx3Query.try_count cx3Query.server = some (1, 1)
    ∧ cx3Query.try_count + 1 < cx3State.channel.nservers * cx3State.channel.tries
    ∧ nextServerF 10 cx3State 7 { sec := 0, usec := 0 } =
        some (endQuery cx3State 7 AresStatus.etimeout, AresStatus.etimeout)
    ∧ (7, AresStatus.etimeout) ∈
        (endQuery cx3State 7 AresStatus.etimeout).ended := by
  refine ⟨by decide, by decide, ?_, by decide⟩
  decide

/-! ### Claim C4

`handle_error` destroys the broken connection before requeueing the
queries that were awaiting an answer on it.  `DeadConn st cid` states that
connection `cid` is gone from every index; the development below shows the
requeue machinery (`next_server` / `ares__send_query`) preserves it and
never parks a query on `cid` again. -/

/-- Connection `cid` is absent from every index of the engine state and
can never be re-created (`nextConnId` has moved past it). -/
def DeadConn (st : EngineState) (cid : Nat) : Prop :=
  st.findConn cid = none
  ∧ (∀ p ∈ st.connnode_by_socket, p.2 ≠ cid)
  ∧ (∀ (k : Nat) (srv : Server), st.channel.servers[k]? = some srv →
      cid ∉ srv.connections ∧ srv.tcp_conn ≠ some cid)
  ∧ cid < st.nextConnId

/-- Bookkeeping facts about one engine step that processes query `qid`
while connection `cid` is dead: the dead connection stays dead, other
queries are untouched, the callback log only grows, no query is created,
no query moves onto `cid`, the processed query's skip flags only grow, and
query-id uniqueness is preserved. -/
def StepOK (cid qid : Nat) (st st' : EngineState) : Prop :=
  DeadConn st' cid
  ∧ (∀ qid2, qid2 ≠ qid → st'.findQuery qid2 = st.findQuery qid2)
  ∧ (∃ l, st'.ended = st.ended ++ l)
  ∧ (∀ q' ∈ st'.queries, ∃ q ∈ st.queries, q.qid = q'.qid ∧
      q'.server_info.length = q.server_info.length)
  ∧ (∀ q' ∈ st'.queries, q'.conn = some cid →
      ∃ q ∈ st.queries, q.qid = q'.qid ∧ q.conn = some cid)
  ∧ (∀ q q', st.findQuery qid = some q → st'.findQuery qid = some q' →
      q'.server_info.length = q.server_info.length ∧
      ∀ i, (q.server_info.getD i default).skip_server = true →
           (q'.server_info.getD i default).skip_server = true)
  ∧ (st.queries.Pairwise (fun a b => a.qid ≠ b.qid) →
      st'.queries.Pairwise (fun a b => a.qid ≠ b.qid))

/-- Query `qid` has been resolved away from the dead connection `cid`: it
is gone and its callback has fired, or it is parked on some other
connection. -/
def Resolved (cid qid : Nat) (st' : EngineState) : Prop :=
  (st'.findQuery qid = none ∧ ∃ s, (qid, s) ∈ st'.ended)
  ∨ (∃ q' c', st'.findQuery qid = some q' ∧ q'.conn = some c' ∧ c' ≠ cid)

theorem find?_conn_map (l : List Connection) (cid : Nat)
    (g : Connection → Connection) (hg : ∀ c, (g c).id = c.id) :
    (l.map g).find? (fun c => c.id == cid) =
      (l.find? (fun c => c.id == cid)).map g := by
  induction l with
  | nil => rfl
  | cons a l ih =>
    by_cases ha : a.id = cid
    · have h1 : (a.id == cid) = true := beq_iff_eq.mpr ha
      have h2 : ((g a).id == cid) = true := by rw [hg a]; exact h1
      simp only [List.map_cons, List.find?_cons, h1, h2, Option.map_some']
    · have h1 : (a.id == cid) = false := by simp [ha]
      have h2 : ((g a).id == cid) = false := by rw [hg a]; exact h1
      simp only [List.map_cons, List.find?_cons, h1, h2]
      exact ih

theorem find?_filter_self_none (l : List Query) (qid : Nat) :
    (l.filter (fun q => q.qid ≠ qid)).find? (fun q => q.qid == qid) = none := by
  rw [List.find?_eq_none]
  intro x hx
  have := List.of_mem_filter hx
  simpa using this

theorem find?_filter_other (l : List Query) (qid qid2 : Nat) (hne : qid2 ≠ qid) :
    (l.filter (fun q => q.qid ≠ qid)).find? (fun q => q.qid == qid2) =
      l.find? (fun q => q.qid == qid2) := by
  induction l with
  | nil => rfl
  | cons a l ih =>
    by_cases ha : a.qid = qid
    · have hb : (a.qid == qid2) = false := by simp [ha, Ne.symm, hne]
      rw [List.filter_cons_of_neg (by simp [ha]), List.find?_cons_of_neg _ (by simp [hb])]
      exact ih
    · rw [List.filter_cons_of_pos (by simp [ha])]
      by_cases hb : a.qid = qid2
      · rw [List.find?_cons_of_pos _ (by simp [hb]),
          List.find?_cons_of_pos _ (by simp [hb])]
      · rw [List.find?_cons_of_neg _ (by simp [hb]),
          List.find?_cons_of_neg _ (by simp [hb])]
        exact ih

theorem find?_eq_of_mem_unique (l : List Query) (q' : Query)
    (hu : l.Pairwise (fun a b => a.qid ≠ b.qid)) (hm : q' ∈ l) :
    l.find? (fun q => q.qid == q'.qid) = some q' := by
  induction l with
  | nil => simp at hm
  | cons a l ih =>
    rcases List.mem_cons.mp hm with rfl | hm2
    · exact List.find?_cons_of_pos _ (by simp)
    · have hne : a.qid ≠ q'.qid := (List.pairwise_cons.mp hu).1 q' hm2
      rw [List.find?_cons_of_neg _ (by simp [hne])]
      exact ih (List.pairwise_cons.mp hu).2 hm2

theorem getD_mem {α : Type} (l : List α) (i : Nat) (d : α) (h : i < l.length) :
    l.getD i d ∈ l := by
  induction l generalizing i with
  | nil => simp at h
  | cons a l ih =>
    cases i with
    | zero => exact List.mem_cons_self a l
    | succ n =>
      simp only [List.getD_cons_succ]
      exact List.mem_cons_of_mem a (ih n (by simpa using h))

theorem findQuery_mem_and_qid {st : EngineState} {qid : Nat} {q : Query}
    (h : st.findQuery qid = some q) : q ∈ st.queries ∧ q.qid = qid := by
  rw [EngineState.findQuery] at h
  exact ⟨List.mem_of_find?_eq_some h, by simpa using List.find?_some h⟩

theorem StepOK_refl (cid qid : Nat) (st : EngineState) (hdead : DeadConn st cid) :
    StepOK cid qid st st :=
  ⟨hdead, fun _ _ => rfl, ⟨[], by simp⟩,
    fun q' hq' => ⟨q', hq', rfl, rfl⟩,
    fun q' hq' hc => ⟨q', hq', rfl, hc⟩,
    fun q q' h1 h2 => by rw [h1] at h2; cases h2; exact ⟨rfl, fun _ h => h⟩,
    fun h => h⟩

theorem StepOK_trans {cid qid : Nat} {st st1 st' : EngineState}
    (h1 : StepOK cid qid st st1) (h2 : StepOK cid qid st1 st') :
    StepOK cid qid st st' := by
  obtain ⟨d1, f1, ⟨l1, e1⟩, s1, n1, m1, u1⟩ := h1
  obtain ⟨d2, f2, ⟨l2, e2⟩, s2, n2, m2, u2⟩ := h2
  refine ⟨d2, ?_, ⟨l1 ++ l2, by rw [e2, e1, List.append_assoc]⟩, ?_, ?_, ?_,
    fun h => u2 (u1 h)⟩
  · intro qid2 hne
    rw [f2 qid2 hne, f1 qid2 hne]
  · intro q' hq'
    obtain ⟨q1, hq1, e1, len1⟩ := s2 q' hq'
    obtain ⟨q0, hq0, e0, len0⟩ := s1 q1 hq1
    exact ⟨q0, hq0, by rw [e0, e1], by rw [len1, len0]⟩
  · intro q' hq' hc
    obtain ⟨q1, hq1, e1, hc1⟩ := n2 q' hq' hc
    obtain ⟨q0, hq0, e0, hc0⟩ := n1 q1 hq1 hc1
    exact ⟨q0, hq0, by rw [e0, e1], hc0⟩
  · intro q q' hfq hfq'
    obtain ⟨hq'mem, hq'qid⟩ := findQuery_mem_and_qid hfq'
    obtain ⟨q1, hq1, e1, _⟩ := s2 q' hq'mem
    have hsome : (st1.findQuery qid).isSome = true := by
      rw [EngineState.findQuery, List.find?_isSome]
      refine ⟨q1, hq1, ?_⟩
      rw [e1, hq'qid]
      simp
    obtain ⟨q1', hq1'⟩ := Option.isSome_iff_exists.mp hsome
    obtain ⟨len1, mono1⟩ := m1 q q1' hfq hq1'
    obtain ⟨len2, mono2⟩ := m2 q1' q' hq1' hfq'
    exact ⟨by rw [len2, len1], fun i h => mono2 i (mono1 i h)⟩

/-- Engine steps that change none of the index structures and do not touch
the query list or the callback log are trivially `StepOK`. -/
theorem StepOK_same_core (cid qid : Nat) (st st' : EngineState)
    (hq : st'.queries = st.queries) (he : st'.ended = st.ended)
    (hc : st'.conns = st.conns) (hs : st'.connnode_by_socket = st.connnode_by_socket)
    (hsrv : st'.channel.servers = st.channel.servers)
    (hn : st'.nextConnId = st.nextConnId)
    (hdead : DeadConn st cid) : StepOK cid qid st st' := by
  have hfq : ∀ k, st'.findQuery k = st.findQuery k := by
    intro k
    rw [EngineState.findQuery, EngineState.findQuery, hq]
  have hdead' : DeadConn st' cid := by
    obtain ⟨a, b, c, d⟩ := hdead
    refine ⟨?_, ?_, ?_, ?_⟩
    · rw [EngineState.findConn, hc]; exact a
    · rw [hs]; exact b
    · intro k srv hk
      rw [hsrv] at hk
      exact c k srv hk
    · rw [hn]; exact d
  refine ⟨hdead', fun qid2 _ => hfq qid2, ⟨[], by rw [he, List.append_nil]⟩, ?_, ?_, ?_, ?_⟩
  · intro q' hq'
    rw [hq] at hq'
    exact ⟨q', hq', rfl, rfl⟩
  · intro q' hq' hcn
    rw [hq] at hq'
    exact ⟨q', hq', rfl, hcn⟩
  · intro q q' h1 h2
    rw [hfq qid, h1] at h2
    cases h2
    exact ⟨rfl, fun _ h => h⟩
  · intro h
    rw [hq]
    exact h

/-- Updating the processed query with a function that preserves the query
id and `server_info` length, never parks the query on the dead connection,
and only raises skip flags, is `StepOK`. -/
theorem updateQuery_stepOK (st : EngineState) (cid qid : Nat) (f : Query → Query)
    (hqid : ∀ x, (f x).qid = x.qid)
    (hconn : ∀ x, (f x).conn = x.conn ∨ ¬ (f x).conn = some cid)
    (hlen : ∀ x, (f x).server_info.length = x.server_info.length)
    (hmono : ∀ x i, (x.server_info.getD i default).skip_server = true →
        ((f x).server_info.getD i default).skip_server = true)
    (hdead : DeadConn st cid) :
    StepOK cid qid st (updateQuery st qid f) := by
  have hg : ∀ x : Query, (if x.qid == qid then f x else x).qid = x.qid := by
    intro x
    cases hb : (x.qid == qid) with
    | true => simp only [if_true, hqid]
    | false => simp only [Bool.false_eq_true, if_false]
  refine ⟨hdead, fun qid2 hne => findQuery_updateQuery_other st qid qid2 f hqid hne,
    ⟨[], by simp [updateQuery]⟩, ?_, ?_, ?_, ?_⟩
  · intro q' hq'
    obtain ⟨q0, hq0, rfl⟩ := List.mem_map.mp hq'
    refine ⟨q0, hq0, (hg q0).symm, ?_⟩
    cases hb : (q0.qid == qid) with
    | true => simp only [hb, if_true, hlen]
    | false => simp only [hb, Bool.false_eq_true, if_false]
  · intro q' hq' hc
    obtain ⟨q0, hq0, rfl⟩ := List.mem_map.mp hq'
    refine ⟨q0, hq0, (hg q0).symm, ?_⟩
    cases hb : (q0.qid == qid) with
    | true =>
      simp only [hb, if_true] at hc ⊢
      rcases hconn q0 with heq | hne
      · rw [← heq]; exact hc
      · exact absurd hc hne
    | false =>
      simp only [hb, Bool.false_eq_true, if_false] at hc
      exact hc
  · intro q q' h1 h2
    rw [findQuery_updateQuery_self st qid f hqid, h1, Option.map_some'] at h2
    cases h2
    exact ⟨hlen q, hmono q⟩
  · intro h
    rw [updateQuery]
    dsimp only
    rw [List.pairwise_map]
    exact h.imp (fun hab => by rw [hg, hg] at *; exact hab)

/-- `skip_server` preserves id, connection, length, and only raises skip
flags. -/
theorem skipServerF_stepOK (st : EngineState) (cid qid i : Nat)
    (hdead : DeadConn st cid) :
    StepOK cid qid st (skipServerF st qid i) := by
  apply updateQuery_stepOK
  · intro x
    unfold skip_server
    split <;> rfl
  · intro x
    left
    unfold skip_server
    split <;> rfl
  · intro x
    unfold skip_server
    split
    · simp
    · rfl
  · intro x j h
    unfold skip_server
    split
    · dsimp only
      by_cases hj : j = i
      · subst hj
        by_cases hb : j < x.server_info.length
        · rw [getD_set_eq _ _ _ _ hb]
        · rw [List.set_eq_of_length_le (by omega)]
          exact h
      · rw [getD_set_ne _ _ _ _ _ hj]
        exact h
    · exact h
  · exact hdead

theorem findConn_detachQuery (st : EngineState) (qid cid : Nat) :
    (detachQuery st qid).findConn cid = (st.findConn cid).map
      (fun c => { c with queries_to_conn := c.queries_to_conn.filter (fun x => x ≠ qid) }) := by
  rw [EngineState.findConn, EngineState.findConn]
  exact find?_conn_map st.conns cid _ (fun _ => rfl)

/-- Ending the processed query is `StepOK` and resolves it. -/
theorem endQuery_stepOK (st : EngineState) (cid qid : Nat) (s : AresStatus)
    (hdead : DeadConn st cid) :
    StepOK cid qid st (endQuery st qid s) ∧ Resolved cid qid (endQuery st qid s) := by
  obtain ⟨a, b, c, d⟩ := hdead
  have hfc : (endQuery st qid s).findConn cid = none := by
    have h2 : (endQuery st qid s).findConn cid = (detachQuery st qid).findConn cid := rfl
    rw [h2, findConn_detachQuery, a]
    rfl
  have hfq : (endQuery st qid s).findQuery qid = none :=
    find?_filter_self_none _ _
  have hmem : (qid, s) ∈ (endQuery st qid s).ended := by
    rw [show (endQuery st qid s).ended = st.ended ++ [(qid, s)] from rfl]
    simp
  refine ⟨⟨⟨hfc, b, c, d⟩, ?_, ⟨[(qid, s)], rfl⟩, ?_, ?_, ?_, ?_⟩, Or.inl ⟨hfq, s, hmem⟩⟩
  · intro qid2 hne
    exact find?_filter_other _ _ _ hne
  · intro q' hq'
    exact ⟨q', List.mem_of_mem_filter hq', rfl, rfl⟩
  · intro q' hq' hc
    exact ⟨q', List.mem_of_mem_filter hq', rfl, hc⟩
  · intro q q' h1 h2
    rw [hfq] at h2
    cases h2
  · intro h
    exact h.sublist (List.filter_sublist _)

/-- Components 2-7 of `StepOK` only look at `queries` and `ended`. -/
theorem StepOK_same_queries (cid qid : Nat) (st st' : EngineState)
    (hq : st'.queries = st.queries) (he : st'.ended = st.ended)
    (hdead' : DeadConn st' cid) : StepOK cid qid st st' := by
  have hfq : ∀ k, st'.findQuery k = st.findQuery k := by
    intro k
    rw [EngineState.findQuery, EngineState.findQuery, hq]
  refine ⟨hdead', fun qid2 _ => hfq qid2, ⟨[], by rw [he, List.append_nil]⟩, ?_, ?_, ?_, ?_⟩
  · intro q' hq'
    rw [hq] at hq'
    exact ⟨q', hq', rfl, rfl⟩
  · intro q' hq' hcn
    rw [hq] at hq'
    exact ⟨q', hq', rfl, hcn⟩
  · intro q q' h1 h2
    rw [hfq qid, h1] at h2
    cases h2
    exact ⟨rfl, fun _ h => h⟩
  · intro h
    rw [hq]
    exact h

theorem getElem?_eq_some_getD {α : Type} [Inhabited α] (l : List α) (i : Nat)
    (h : i < l.length) : l[i]? = some (l.getD i default) := by
  rw [List.getElem?_eq_getElem h]
  congr 1
  rw [List.getD_eq_getElem?_getD, List.getElem?_eq_getElem h]
  rfl

theorem mem_of_head?_some {α : Type} {l : List α} {a : α}
    (h : l.head? = some a) : a ∈ l := by
  cases l <;> simp_all

/-- Mapping an id-preserving function over the connection list is
`StepOK`. -/
theorem connsMap_stepOK (st : EngineState) (cid qid : Nat)
    (g : Connection → Connection) (hg : ∀ c, (g c).id = c.id)
    (hdead : DeadConn st cid) :
    StepOK cid qid st { st with conns := st.conns.map g } := by
  obtain ⟨a, bmap, c, d⟩ := hdead
  refine StepOK_same_queries _ _ _ _ rfl rfl ⟨?_, bmap, c, d⟩
  rw [EngineState.findConn]
  dsimp only
  rw [find?_conn_map st.conns cid g hg]
  rw [EngineState.findConn] at a
  rw [a]
  rfl

/-- Updating a server in place, without touching its connection list or
its TCP connection pointer, is `StepOK`. -/
theorem updateServer_stepOK (st : EngineState) (cid qid i : Nat)
    (f : Server → Server)
    (hf1 : ∀ s, (f s).connections = s.connections)
    (hf2 : ∀ s, (f s).tcp_conn = s.tcp_conn)
    (hdead : DeadConn st cid) :
    StepOK cid qid st (updateServer st i f) := by
  obtain ⟨a, bmap, c, d⟩ := hdead
  refine StepOK_same_queries _ _ _ _ rfl rfl ⟨a, bmap, ?_, d⟩
  intro k srv hk
  rw [show (updateServer st i f).channel.servers =
      st.channel.servers.set i (f (st.channel.servers.getD i default)) from rfl] at hk
  rw [List.getElem?_set] at hk
  by_cases hik : i = k
  · rw [if_pos hik] at hk
    by_cases hlt : i < st.channel.servers.length
    · rw [if_pos hlt] at hk
      cases hk
      obtain ⟨c1, c2⟩ := c i _ (getElem?_eq_some_getD st.channel.servers i hlt)
      exact ⟨by rw [hf1]; exact c1, by rw [hf2]; exact c2⟩
    · rw [if_neg hlt] at hk
      cases hk
  · rw [if_neg hik] at hk
    exact c k srv hk

/-- While `cid` is dead, the head of a server's connection list is never
`cid`. -/
theorem serverHead_ne (st : EngineState) (srvIdx cid : Nat)
    (hdead : DeadConn st cid) :
    ∀ cid2, (st.channel.servers.getD srvIdx default).connections.head? = some cid2 →
      cid2 ≠ cid := by
  intro cid2 h
  by_cases hlt : srvIdx < st.channel.servers.length
  · have hmem := mem_of_head?_some h
    have := (hdead.2.2.1 srvIdx _ (getElem?_eq_some_getD _ _ hlt)).1
    intro hEq
    rw [hEq] at hmem
    exact this hmem
  · rw [List.getD_eq_default _ _ (by omega)] at h
    cases h

/-- While `cid` is dead, no server's `tcp_conn` is `cid`. -/
theorem serverTcpConn_ne (st : EngineState) (srvIdx cid : Nat)
    (hdead : DeadConn st cid) :
    ∀ cid2, (st.channel.servers.getD srvIdx default).tcp_conn = some cid2 →
      cid2 ≠ cid := by
  intro cid2 h
  by_cases hlt : srvIdx < st.channel.servers.length
  · have := (hdead.2.2.1 srvIdx _ (getElem?_eq_some_getD _ _ hlt)).2
    intro hEq
    rw [hEq] at h
    exact this h
  · rw [List.getD_eq_default _ _ (by omega)] at h
    cases h

theorem find?_cons_ne (l : List Connection) (c0 : Connection) (cid : Nat)
    (hne : c0.id ≠ cid) (h : List.find? (fun c2 => c2.id == cid) l = none) :
    List.find? (fun c2 => c2.id == cid) (c0 :: l) = none := by
  rw [List.find?_cons]
  have hb : (c0.id == cid) = false := by
    simp only [beq_eq_false_iff_ne]
    exact hne
  rw [hb]
  exact h

/-- Prepending a fresh connection id to a server slot keeps a dead
connection out of every server's index. -/
theorem DeadConn_servers_open (servers : List Server) (cid srvIdx newCid : Nat) (b : Bool)
    (hc : ∀ (k : Nat) (srv : Server), servers[k]? = some srv →
      cid ∉ srv.connections ∧ srv.tcp_conn ≠ some cid)
    (hne : newCid ≠ cid) :
    ∀ (k : Nat) (srv : Server),
      (servers.set srvIdx
        { servers.getD srvIdx default with
          connections := newCid :: (servers.getD srvIdx default).connections,
          tcp_conn := if b then some newCid else (servers.getD srvIdx default).tcp_conn,
          tcp_connection_generation :=
            if b then (servers.getD srvIdx default).tcp_connection_generation + 1
            else (servers.getD srvIdx default).tcp_connection_generation })[k]? = some srv →
      cid ∉ srv.connections ∧ srv.tcp_conn ≠ some cid := by
  intro k srv hk
  rw [List.getElem?_set] at hk
  by_cases hik : srvIdx = k
  · rw [if_pos hik] at hk
    by_cases hlt : srvIdx < servers.length
    · rw [if_pos hlt] at hk
      cases hk
      obtain ⟨c1, c2⟩ := hc srvIdx _ (getElem?_eq_some_getD servers srvIdx hlt)
      constructor
      · intro hmem
        rcases List.mem_cons.mp hmem with hEq | hmem2
        · omega
        · exact c1 hmem2
      · by_cases hb : b = true
        · rw [if_pos hb]
          intro hEq
          exact hne (Option.some.inj hEq)
        · rw [if_neg hb]
          exact c2
    · rw [if_neg hlt] at hk
      cases hk
  · rw [if_neg hik] at hk
    exact hc k srv hk

/-- Opening a connection never resurrects the dead connection and does not
touch the queries. -/
theorem openConnection_stepOK (st : EngineState) (cid qid srvIdx : Nat) (b : Bool)
    (hdead : DeadConn st cid) :
    StepOK cid qid st (openConnection st srvIdx b).1
    ∧ (openConnection st srvIdx b).1.findQuery qid = st.findQuery qid
    ∧ (openConnection st srvIdx b).1.channel.servers.length =
        st.channel.servers.length := by
  obtain ⟨a, bmap, c, d⟩ := hdead
  unfold openConnection
  cases hst : st.openPlan.headD .success
  case success =>
    refine ⟨StepOK_same_queries _ _ _ _ rfl rfl
      ⟨?_, ?_,
        DeadConn_servers_open st.channel.servers cid srvIdx st.nextConnId b c (by omega),
        by show cid < st.nextConnId + 1; omega⟩, rfl,
      by simp [updateServer]⟩
    · exact find?_cons_ne st.conns _ cid (by show st.nextConnId ≠ cid; omega) a
    · intro p hp
      rcases List.mem_cons.mp hp with rfl | hp2
      · show st.nextConnId ≠ cid
        omega
      · exact bmap p hp2
  all_goals exact ⟨StepOK_same_queries _ _ _ _ rfl rfl ⟨a, bmap, c, d⟩, rfl, rfl⟩

/-- With more than one server and an in-range index, applying
`skip_server` sets the skip flag at that index. -/
theorem skip_server_sets (ch : Channel) (q : Query) (i : Nat)
    (hns : ch.nservers > 1) (hlt : i < q.server_info.length) :
    ((skip_server ch q i).server_info.getD i default).skip_server = true := by
  unfold skip_server
  rw [if_pos hns]
  dsimp only
  rw [getD_set_eq _ _ _ _ hlt]

/-- The per-connection edit of the enqueue tail of `ares__send_query`. -/
def enqueueConnUpd (qid : Nat) : Connection → Connection := fun c =>
  { c with queries_to_conn := c.queries_to_conn ++ [qid],
           total_queries := c.total_queries + 1 }

/-- The per-query edit of the enqueue tail of `ares__send_query`. -/
def enqueueQueryUpd (cid : Nat) (now : Timeval) (tp : Nat) : Query → Query := fun q =>
  { q with timeout := timeadd now tp, conn := some cid }

/-- The enqueue tail of `ares__send_query` is `StepOK` and parks the query
on the chosen connection, resolving it away from the dead one. -/
theorem sendQueryEnqueue_ok (st : EngineState) (cid qid cid2 : Nat) (now : Timeval)
    (q : Query) (hq : st.findQuery qid = some q) (hne : cid2 ≠ cid)
    (hdead : DeadConn st cid) :
    StepOK cid qid st (sendQueryEnqueue st qid cid2 now)
    ∧ Resolved cid qid (sendQueryEnqueue st qid cid2 now)
    ∧ (sendQueryEnqueue st qid cid2 now).channel.servers.length =
        st.channel.servers.length := by
  have he : sendQueryEnqueue st qid cid2 now =
      updateQuery (updateConn (detachConnNode st qid) cid2 (enqueueConnUpd qid)) qid
        (enqueueQueryUpd cid2 now
          (sendQueryTimeplus st.channel.timeout q.try_count st.channel.nservers)) := by
    unfold sendQueryEnqueue
    rw [hq]
    rfl
  rw [he]
  have h1 : StepOK cid qid st (detachConnNode st qid) :=
    connsMap_stepOK st cid qid _ (fun _ => rfl) hdead
  have h2 : StepOK cid qid (detachConnNode st qid)
      (updateConn (detachConnNode st qid) cid2 (enqueueConnUpd qid)) :=
    connsMap_stepOK _ cid qid _ (fun c => by unfold enqueueConnUpd; split <;> rfl) h1.1
  have h3 : StepOK cid qid
      (updateConn (detachConnNode st qid) cid2 (enqueueConnUpd qid))
      (updateQuery (updateConn (detachConnNode st qid) cid2 (enqueueConnUpd qid)) qid
        (enqueueQueryUpd cid2 now
          (sendQueryTimeplus st.channel.timeout q.try_count st.channel.nservers))) :=
    updateQuery_stepOK _ cid qid _ (fun _ => rfl)
      (fun _ => Or.inr (fun hc => hne (Option.some.inj hc)))
      (fun _ => rfl) (fun _ _ h => h) h2.1
  refine ⟨StepOK_trans (StepOK_trans h1 h2) h3, ?_, rfl⟩
  refine Or.inr ⟨enqueueQueryUpd cid2 now
    (sendQueryTimeplus st.channel.timeout q.try_count st.channel.nservers) q, cid2,
    ?_, rfl, hne⟩
  rw [findQuery_updateQuery_self _ _
    (enqueueQueryUpd cid2 now
      (sendQueryTimeplus st.channel.timeout q.try_count st.channel.nservers))
    (fun _ => rfl)]
  rw [show (updateConn (detachConnNode st qid) cid2 (enqueueConnUpd qid)).findQuery qid
      = some q from hq]
  rfl

/-- A connection picked for UDP reuse is never the dead one. -/
theorem udpPickConn_ne (st : EngineState) (srvIdx cid : Nat)
    (hdead : DeadConn st cid) :
    ∀ cid2, udpPickConn st srvIdx = some cid2 → cid2 ≠ cid := by
  intro cid2 h
  unfold udpPickConn at h
  split at h
  · cases h
  · rename_i c0 hh
    split at h
    · cases h
    · rename_i c hfc
      split at h
      · cases h
      · split at h
        · cases h
        · cases h
          exact serverHead_ne st srvIdx cid hdead _ hh

theorem findQuery_updateQuery_isSome (st : EngineState) (qid : Nat)
    (f : Query → Query) (hf : ∀ q, (f q).qid = q.qid) :
    ((updateQuery st qid f).findQuery qid).isSome = (st.findQuery qid).isSome := by
  rw [findQuery_updateQuery_self st qid f hf]
  cases st.findQuery qid <;> rfl

/-- The TCP append tail of `ares__send_query`: `StepOK`, and the enqueue
target is the server's TCP connection, never the dead one. -/
theorem tcpAppend_ok (st : EngineState) (cid qid srvIdx : Nat)
    (hdead : DeadConn st cid) :
    ∀ st1 s cid2,
      (tcpAppend st qid srvIdx = .retryNext st1 → False)
      ∧ (tcpAppend st qid srvIdx = .fatalEnd st1 s →
          StepOK cid qid st st1 ∧
          st1.channel.servers.length = st.channel.servers.length)
      ∧ (tcpAppend st qid srvIdx = .enqueueOn st1 cid2 →
          StepOK cid qid st st1 ∧ cid2 ≠ cid ∧
          (st1.findQuery qid).isSome = (st.findQuery qid).isSome ∧
          st1.channel.servers.length = st.channel.servers.length) := by
  intro st1 s cid2
  unfold tcpAppend
  split
  · rename_i cid0 q htc hfq
    refine ⟨(fun h => nomatch h), (fun h => nomatch h), fun h => ?_⟩
    cases h
    have hA : StepOK cid qid st (updateServer st srvIdx
        (fun sv => { sv with tcp_send_len := sv.tcp_send_len + q.tcplen })) :=
      updateServer_stepOK st cid qid srvIdx _ (fun _ => rfl) (fun _ => rfl) hdead
    refine ⟨StepOK_trans hA (updateQuery_stepOK _ cid qid _ (fun _ => rfl)
        (fun _ => Or.inl rfl) (fun x => by simp) ?_ hA.1),
      serverTcpConn_ne st srvIdx cid hdead cid2 htc, ?_,
      by simp [updateQuery, updateServer]⟩
    · intro x j h
      dsimp only
      by_cases hj : j = srvIdx
      · subst hj
        by_cases hb : j < x.server_info.length
        · rw [getD_set_eq _ _ _ _ hb]
          exact h
        · rw [List.set_eq_of_length_le (by omega)]
          exact h
      · rw [getD_set_ne _ _ _ _ _ hj]
        exact h
    · refine Eq.trans (findQuery_updateQuery_isSome _ qid _ ?_) rfl
      intro x
      rfl
  · refine ⟨(fun h => nomatch h), fun h => ?_, (fun h => nomatch h)⟩
    cases h
    exact ⟨StepOK_refl _ _ _ hdead, rfl⟩

/-- The UDP write step of `ares__send_query`: enqueue on the given
connection, or skip the server and retry on write failure. -/
theorem udpWrite_ok (st : EngineState) (cid qid srvIdx cid0 : Nat)
    (hdead : DeadConn st cid) (hne : cid0 ≠ cid) :
    ∀ st1 s cid2,
      (udpWrite st qid srvIdx cid0 = .retryNext st1 →
          StepOK cid qid st st1 ∧
          st1.channel.servers.length = st.channel.servers.length)
      ∧ (udpWrite st qid srvIdx cid0 = .fatalEnd st1 s → False)
      ∧ (udpWrite st qid srvIdx cid0 = .enqueueOn st1 cid2 →
          StepOK cid qid st st1 ∧ cid2 ≠ cid ∧
          st1.findQuery qid = st.findQuery qid ∧
          st1.channel.servers.length = st.channel.servers.length) := by
  intro st1 s cid2
  have hcore : StepOK cid qid st { st with writePlan := st.writePlan.tail } :=
    StepOK_same_core _ _ _ _ rfl rfl rfl rfl rfl rfl hdead
  simp only [udpWrite]
  by_cases hok : st.writePlan.headD true = true
  · rw [if_pos hok]
    refine ⟨(fun h => nomatch h), (fun h => nomatch h), fun h => ?_⟩
    cases h
    exact ⟨hcore, hne, rfl, rfl⟩
  · rw [if_neg hok]
    refine ⟨fun h => ?_, (fun h => nomatch h), (fun h => nomatch h)⟩
    cases h
    exact ⟨StepOK_trans hcore (skipServerF_stepOK _ cid qid srvIdx hcore.1), rfl⟩

/-- The connection-selection phase of `ares__send_query` while `cid` is
dead: every continuation is `StepOK`, an enqueue target is never `cid`,
and on the enqueue path the query is still indexed. -/
theorem sendQuerySelect_ok (st : EngineState) (cid qid : Nat)
    (hdead : DeadConn st cid) :
    ∀ st1 s cid2,
      (sendQuerySelect st qid = some (.retryNext st1) →
          StepOK cid qid st st1 ∧
          st1.channel.servers.length = st.channel.servers.length)
      ∧ (sendQuerySelect st qid = some (.fatalEnd st1 s) →
          StepOK cid qid st st1 ∧
          st1.channel.servers.length = st.channel.servers.length)
      ∧ (sendQuerySelect st qid = some (.enqueueOn st1 cid2) →
          StepOK cid qid st st1 ∧ cid2 ≠ cid ∧
          (st1.findQuery qid).isSome = true ∧
          st1.channel.servers.length = st.channel.servers.length) := by
  intro st1 s cid2
  simp only [sendQuerySelect]
  split
  · exact ⟨(fun h => nomatch h), (fun h => nomatch h), (fun h => nomatch h)⟩
  · rename_i q hfq
    split
    case isFalse =>
      exact ⟨(fun h => nomatch h), (fun h => nomatch h), (fun h => nomatch h)⟩
    case isTrue hsrv =>
      split
      case isTrue htcp =>
        split
        case isTrue htc0 =>
          split
          · rename_i stA heq
            have hop := openConnection_stepOK st cid qid q.server true hdead
            rw [heq] at hop
            have hopS : StepOK cid qid st stA := hop.1
            have hopF : stA.findQuery qid = st.findQuery qid := hop.2.1
            have hopL : stA.channel.servers.length = st.channel.servers.length :=
              hop.2.2
            have hTA := tcpAppend_ok stA cid qid q.server hopS.1 st1 s cid2
            refine ⟨fun h => (hTA.1 (Option.some.inj h)).elim, fun h => ?_, fun h => ?_⟩
            · obtain ⟨hs2, hl2⟩ := hTA.2.1 (Option.some.inj h)
              exact ⟨StepOK_trans hopS hs2, hl2.trans hopL⟩
            · obtain ⟨hs2, hne2, hiso, hl2⟩ := hTA.2.2 (Option.some.inj h)
              refine ⟨StepOK_trans hopS hs2, hne2, ?_, hl2.trans hopL⟩
              rw [hiso, hopF, hfq]
              rfl
          · rename_i stA heq
            have hop := openConnection_stepOK st cid qid q.server true hdead
            rw [heq] at hop
            have hopS : StepOK cid qid st stA := hop.1
            have hopL : stA.channel.servers.length = st.channel.servers.length :=
              hop.2.2
            refine ⟨fun h => ?_, (fun h => nomatch (Option.some.inj h)),
              (fun h => nomatch (Option.some.inj h))⟩
            have h2 := Option.some.inj h
            cases h2
            exact ⟨StepOK_trans hopS (skipServerF_stepOK _ cid qid q.server hopS.1), hopL⟩
          · rename_i stA heq
            have hop := openConnection_stepOK st cid qid q.server true hdead
            rw [heq] at hop
            have hopS : StepOK cid qid st stA := hop.1
            have hopL : stA.channel.servers.length = st.channel.servers.length :=
              hop.2.2
            refine ⟨fun h => ?_, (fun h => nomatch (Option.some.inj h)),
              (fun h => nomatch (Option.some.inj h))⟩
            have h2 := Option.some.inj h
            cases h2
            exact ⟨StepOK_trans hopS (skipServerF_stepOK _ cid qid q.server hopS.1), hopL⟩
          · rename_i stA s0 hc1 hc2 hc3 heq
            have hop := openConnection_stepOK st cid qid q.server true hdead
            rw [heq] at hop
            have hopS : StepOK cid qid st stA := hop.1
            have hopL : stA.channel.servers.length = st.channel.servers.length :=
              hop.2.2
            refine ⟨(fun h => nomatch (Option.some.inj h)), fun h => ?_,
              (fun h => nomatch (Option.some.inj h))⟩
            have h2 := Option.some.inj h
            cases h2
            exact ⟨hopS, hopL⟩
        case isFalse htc0 =>
          have hTA := tcpAppend_ok st cid qid q.server hdead st1 s cid2
          refine ⟨fun h => (hTA.1 (Option.some.inj h)).elim, fun h => ?_, fun h => ?_⟩
          · exact hTA.2.1 (Option.some.inj h)
          · obtain ⟨hs2, hne2, hiso, hl2⟩ := hTA.2.2 (Option.some.inj h)
            refine ⟨hs2, hne2, ?_, hl2⟩
            rw [hiso, hfq]
            rfl
      case isFalse htcp =>
        split
        · rename_i c0 hpick
          have hc0 : c0 ≠ cid := udpPickConn_ne st q.server cid hdead c0 hpick
          have hUW := udpWrite_ok st cid qid q.server c0 hdead hc0 st1 s cid2
          refine ⟨fun h => ?_, fun h => (hUW.2.1 (Option.some.inj h)).elim, fun h => ?_⟩
          · exact hUW.1 (Option.some.inj h)
          · obtain ⟨hs2, hne2, hfqe, hl2⟩ := hUW.2.2 (Option.some.inj h)
            refine ⟨hs2, hne2, ?_, hl2⟩
            rw [hfqe, hfq]
            rfl
        · split
          · rename_i stA heq
            have hop := openConnection_stepOK st cid qid q.server false hdead
            rw [heq] at hop
            have hopS : StepOK cid qid st stA := hop.1
            have hopF : stA.findQuery qid = st.findQuery qid := hop.2.1
            have hopL : stA.channel.servers.length = st.channel.servers.length :=
              hop.2.2
            split
            · rename_i c0 hhead
              have hc0 : c0 ≠ cid := serverHead_ne stA q.server cid hopS.1 c0 hhead
              have hUW := udpWrite_ok stA cid qid q.server c0 hopS.1 hc0 st1 s cid2
              refine ⟨fun h => ?_, fun h => (hUW.2.1 (Option.some.inj h)).elim,
                fun h => ?_⟩
              · obtain ⟨hs2, hl2⟩ := hUW.1 (Option.some.inj h)
                exact ⟨StepOK_trans hopS hs2, hl2.trans hopL⟩
              · obtain ⟨hs2, hne2, hfqe, hl2⟩ := hUW.2.2 (Option.some.inj h)
                refine ⟨StepOK_trans hopS hs2, hne2, ?_, hl2.trans hopL⟩
                rw [hfqe, hopF, hfq]
                rfl
            · refine ⟨(fun h => nomatch (Option.some.inj h)), fun h => ?_,
                (fun h => nomatch (Option.some.inj h))⟩
              have h2 := Option.some.inj h
              cases h2
              exact ⟨hopS, hopL⟩
          · rename_i stA heq
            have hop := openConnection_stepOK st cid qid q.server false hdead
            rw [heq] at hop
            have hopS : StepOK cid qid st stA := hop.1
            have hopL : stA.channel.servers.length = st.channel.servers.length :=
              hop.2.2
            refine ⟨fun h => ?_, (fun h => nomatch (Option.some.inj h)),
              (fun h => nomatch (Option.some.inj h))⟩
            have h2 := Option.some.inj h
            cases h2
            exact ⟨StepOK_trans hopS (skipServerF_stepOK _ cid qid q.server hopS.1), hopL⟩
          · rename_i stA heq
            have hop := openConnection_stepOK st cid qid q.server false hdead
            rw [heq] at hop
            have hopS : StepOK cid qid st stA := hop.1
            have hopL : stA.channel.servers.length = st.channel.servers.length :=
              hop.2.2
            refine ⟨fun h => ?_, (fun h => nomatch (Option.some.inj h)),
              (fun h => nomatch (Option.some.inj h))⟩
            have h2 := Option.some.inj h
            cases h2
            exact ⟨StepOK_trans hopS (skipServerF_stepOK _ cid qid q.server hopS.1), hopL⟩
          · rename_i stA s0 hc1 hc2 hc3 heq
            have hop := openConnection_stepOK st cid qid q.server false hdead
            rw [heq] at hop
            have hopS : StepOK cid qid st stA := hop.1
            have hopL : stA.channel.servers.length = st.channel.servers.length :=
              hop.2.2
            refine ⟨(fun h => nomatch (Option.some.inj h)), fun h => ?_,
              (fun h => nomatch (Option.some.inj h))⟩
            have h2 := Option.some.inj h
            cases h2
            exact ⟨hopS, hopL⟩

/-- The requeue engine (`ares__send_query` / `next_server`) while `cid` is
dead: any completed run is `StepOK`, leaves the processed query resolved
away from `cid`, and preserves the server count. -/
theorem engine_ok (cid : Nat) (now : Timeval) :
    ∀ fuel : Nat,
      (∀ st qid st' s, DeadConn st cid →
          sendQueryF fuel st qid now = some (st', s) →
          StepOK cid qid st st' ∧ Resolved cid qid st' ∧
          st'.channel.servers.length = st.channel.servers.length)
      ∧ (∀ st qid st' s, DeadConn st cid →
          nextServerF fuel st qid now = some (st', s) →
          StepOK cid qid st st' ∧ Resolved cid qid st' ∧
          st'.channel.servers.length = st.channel.servers.length) := by
  intro fuel
  induction fuel with
  | zero =>
    refine ⟨fun st qid st' s _ h => ?_, fun st qid st' s _ h => ?_⟩
    · exact nomatch h
    · exact nomatch h
  | succ fuel ih =>
    constructor
    · intro st qid st' s hdead h
      simp only [sendQueryF] at h
      split at h
      · cases h
      · rename_i st1 heq
        have hsel := (sendQuerySelect_ok st cid qid hdead st1 s 0).1 heq
        have hns := ih.2 st1 qid st' s hsel.1.1 h
        exact ⟨StepOK_trans hsel.1 hns.1, hns.2.1, hns.2.2.trans hsel.2⟩
      · rename_i st1 s0 heq
        have h2 := Option.some.inj h
        cases h2
        have hsel := (sendQuerySelect_ok st cid qid hdead st1 s 0).2.1 heq
        have hend := endQuery_stepOK st1 cid qid s hsel.1.1
        exact ⟨StepOK_trans hsel.1 hend.1, hend.2, hsel.2⟩
      · rename_i st1 cid2 heq
        have h2 := Option.some.inj h
        cases h2
        have hsel := (sendQuerySelect_ok st cid qid hdead st1
          AresStatus.success cid2).2.2 heq
        obtain ⟨hs1, hne2, hiso, hl1⟩ := hsel
        obtain ⟨q1, hq1⟩ := Option.isSome_iff_exists.mp hiso
        have henq := sendQueryEnqueue_ok st1 cid qid cid2 now q1 hq1 hne2 hs1.1
        exact ⟨StepOK_trans hs1 henq.1, henq.2.1, henq.2.2.trans hl1⟩
    · intro st qid st' s hdead h
      simp only [nextServerF] at h
      split at h
      · cases h
      · rename_i q hfq
        split at h
        · rename_i t' s' hscan
          have hupd : StepOK cid qid st (updateQuery st qid
              (fun qq => { qq with try_count := t', server := s' })) :=
            updateQuery_stepOK st cid qid _ (fun _ => rfl) (fun _ => Or.inl rfl)
              (fun _ => rfl) (fun _ _ hsk => hsk) hdead
          have hsq := ih.1 _ qid st' s hupd.1 h
          exact ⟨StepOK_trans hupd hsq.1, hsq.2.1, hsq.2.2⟩
        · rename_i hscan
          have h2 := Option.some.inj h
          cases h2
          have hend := endQuery_stepOK st cid qid q.error_status hdead
          exact ⟨hend.1, hend.2, rfl⟩

/-- A resolved query stays resolved under later steps that do not touch it
and only append to the callback log. -/
theorem Resolved_mono (cid qid : Nat) (st1 st2 : EngineState)
    (h : Resolved cid qid st1)
    (hfq : st2.findQuery qid = st1.findQuery qid)
    (hend : ∃ l, st2.ended = st1.ended ++ l) :
    Resolved cid qid st2 := by
  obtain ⟨l, hl⟩ := hend
  rcases h with ⟨h1, s, h2⟩ | ⟨q', c', h1, h2, h3⟩
  · exact Or.inl ⟨by rw [hfq]; exact h1, s,
      by rw [hl]; exact List.mem_append_left _ h2⟩
  · exact Or.inr ⟨q', c', by rw [hfq]; exact h1, h2, h3⟩

/-- The requeue loop of `handle_error`: while `cid` is dead, a completed
run keeps it dead, only appends callbacks, leaves unrelated queries alone,
never moves any query onto `cid`, preserves qid-uniqueness and the server
count, resolves every requeued query, and leaves the skip flag set for the
broken server on every requeued query that survives. -/
theorem requeueList_ok (cid srvIdx : Nat) (now : Timeval) :
    ∀ (qids : List Nat), ∀ (fuel : Nat) (st st' : EngineState),
      DeadConn st cid → qids.Nodup →
      requeueList fuel st srvIdx qids now = some st' →
      DeadConn st' cid
      ∧ (∃ l, st'.ended = st.ended ++ l)
      ∧ (∀ qid2, qid2 ∉ qids → st'.findQuery qid2 = st.findQuery qid2)
      ∧ (∀ q' ∈ st'.queries, q'.conn = some cid →
          ∃ q ∈ st.queries, q.qid = q'.qid ∧ q.conn = some cid)
      ∧ (st.queries.Pairwise (fun a b => a.qid ≠ b.qid) →
          st'.queries.Pairwise (fun a b => a.qid ≠ b.qid))
      ∧ st'.channel.servers.length = st.channel.servers.length
      ∧ (∀ qid ∈ qids, Resolved cid qid st')
      ∧ (st.channel.servers.length > 1 →
          ∀ qid ∈ qids, ∀ q0, st.findQuery qid = some q0 →
            srvIdx < q0.server_info.length →
            ∀ q', st'.findQuery qid = some q' →
              (q'.server_info.getD srvIdx default).skip_server = true) := by
  intro qids
  induction qids with
  | nil =>
    intro fuel st st' hdead _ h
    simp only [requeueList] at h
    cases h
    exact ⟨hdead, ⟨[], by simp⟩, fun _ _ => rfl,
      fun q' hq' hc => ⟨q', hq', rfl, hc⟩, fun hp => hp, rfl,
      fun qid hq => absurd hq (List.not_mem_nil _),
      fun _ qid hq => absurd hq (List.not_mem_nil _)⟩
  | cons qid rest ih =>
    intro fuel st st' hdead hnd h
    simp only [requeueList] at h
    split at h
    · cases h
    · rename_i st2 s2 hns
      obtain ⟨hqn, hrestnd⟩ := List.nodup_cons.mp hnd
      have hskip : StepOK cid qid st (skipServerF st qid srvIdx) :=
        skipServerF_stepOK st cid qid srvIdx hdead
      have heng := (engine_ok cid now fuel).2 (skipServerF st qid srvIdx)
        qid st2 s2 hskip.1 hns
      have hstep : StepOK cid qid st st2 := StepOK_trans hskip heng.1
      have hlen2 : st2.channel.servers.length = st.channel.servers.length :=
        heng.2.2
      obtain ⟨d2, ⟨l2, e2⟩, f2, c2, p2, len2, r2, sk2⟩ :=
        ih fuel st2 st' hstep.1 hrestnd h
      obtain ⟨l1, e1⟩ := hstep.2.2.1
      refine ⟨d2, ⟨l1 ++ l2, by rw [e2, e1, List.append_assoc]⟩, ?_, ?_, ?_,
        len2.trans hlen2, ?_, ?_⟩
      · intro qid2 hq2
        have hne : qid2 ≠ qid := fun hEq => hq2 (hEq ▸ List.mem_cons_self _ _)
        have hnr : qid2 ∉ rest := fun hm => hq2 (List.mem_cons_of_mem _ hm)
        rw [f2 qid2 hnr, hstep.2.1 qid2 hne]
      · intro q' hq' hc
        obtain ⟨q1, hq1, e3, hc1⟩ := c2 q' hq' hc
        obtain ⟨q0, hq0, e0, hc0⟩ := hstep.2.2.2.2.1 q1 hq1 hc1
        exact ⟨q0, hq0, e0.trans e3, hc0⟩
      · intro hp
        exact p2 (hstep.2.2.2.2.2.2 hp)
      · intro qx hqx
        rcases List.mem_cons.mp hqx with rfl | hqx2
        · exact Resolved_mono cid qx st2 st' heng.2.1 (f2 qx hqn) ⟨l2, e2⟩
        · exact r2 qx hqx2
      · intro hns1 qx hqx q0 hfq0 hlt q' hq'
        rcases List.mem_cons.mp hqx with rfl | hqx2
        · have hq1 : (skipServerF st qx srvIdx).findQuery qx =
              (st.findQuery qx).map (fun qq => skip_server st.channel qq srvIdx) :=
            findQuery_updateQuery_self st qx _
              (fun qq => by unfold skip_server; split <;> rfl)
          rw [hfq0] at hq1
          have hflag : ((skip_server st.channel q0 srvIdx).server_info.getD
              srvIdx default).skip_server = true :=
            skip_server_sets st.channel q0 srvIdx hns1 hlt
          cases hq2 : st2.findQuery qx with
          | none =>
            rw [f2 qx hqn, hq2] at hq'
            cases hq'
          | some q2 =>
            have hm := heng.1.2.2.2.2.2.1 (skip_server st.channel q0 srvIdx)
              q2 hq1 hq2
            have hflag2 : ((q2.server_info.getD srvIdx default)).skip_server = true :=
              hm.2 srvIdx hflag
            rw [f2 qx hqn, hq2] at hq'
            cases hq'
            exact hflag2
        · apply sk2 (by rw [hlen2]; exact hns1) qx hqx2 q0 ?_ hlt q' hq'
          rw [hstep.2.1 qx (fun hEq => hqn (hEq ▸ hqx2))]
          exact hfq0

theorem find?_filter_conn_none (l : List Connection) (cid : Nat) :
    (l.filter (fun c => c.id ≠ cid)).find? (fun c => c.id == cid) = none := by
  rw [List.find?_eq_none]
  intro x hx
  have := List.of_mem_filter hx
  simpa using this

/-- Removing the dead connection from its server slot, when no other
server references it, erases it from the whole server table. -/
theorem DeadConn_servers_close (servers : List Server) (cid i : Nat)
    (hloc : ∀ (k : Nat) (srv : Server), servers[k]? = some srv →
        (cid ∈ srv.connections → k = i) ∧ (srv.tcp_conn = some cid → k = i)) :
    ∀ (k : Nat) (srv : Server),
      (servers.set i
        { servers.getD i default with
          connections := (servers.getD i default).connections.filter
            (fun x => x ≠ cid),
          tcp_conn := if (servers.getD i default).tcp_conn == some cid then none
            else (servers.getD i default).tcp_conn })[k]? = some srv →
      cid ∉ srv.connections ∧ srv.tcp_conn ≠ some cid := by
  intro k srv hk
  rw [List.getElem?_set] at hk
  by_cases hik : i = k
  · rw [if_pos hik] at hk
    by_cases hlt : i < servers.length
    · rw [if_pos hlt] at hk
      cases hk
      constructor
      · intro hmem
        have := List.of_mem_filter hmem
        simp at this
      · by_cases htc : ((servers.getD i default).tcp_conn == some cid) = true
        · rw [if_pos htc]
          exact fun hc => nomatch hc
        · rw [if_neg htc]
          simpa using htc
    · rw [if_neg hlt] at hk
      cases hk
  · rw [if_neg hik] at hk
    obtain ⟨h1, h2⟩ := hloc k srv hk
    constructor
    · intro hmem
      exact hik (h1 hmem).symm
    · intro htc
      exact hik (h2 htc).symm

/-- Modelled from the spec: destroying a connection removes it from every
index, provided only its own server references it. -/
theorem closeConnection_dead (st : EngineState) (cid : Nat) (conn : Connection)
    (hconn : st.findConn cid = some conn)
    (hloc : ∀ (k : Nat) (srv : Server), st.channel.servers[k]? = some srv →
        (cid ∈ srv.connections → k = conn.serverIdx) ∧
        (srv.tcp_conn = some cid → k = conn.serverIdx))
    (hfresh : cid < st.nextConnId) :
    DeadConn (closeConnection st cid) cid
    ∧ (closeConnection st cid).queries = st.queries
    ∧ (closeConnection st cid).ended = st.ended
    ∧ (closeConnection st cid).channel.servers.length =
        st.channel.servers.length := by
  unfold closeConnection
  split
  · rename_i heq
    rw [hconn] at heq
    cases heq
  · rename_i conn0 heq
    have hc0 : conn0 = conn := by
      rw [hconn] at heq
      exact (Option.some.inj heq).symm
    subst hc0
    refine ⟨⟨?_, ?_, ?_, hfresh⟩, rfl, rfl, by simp [updateServer]⟩
    · exact find?_filter_conn_none st.conns cid
    · intro p hp
      have := List.of_mem_filter hp
      simpa using this
    · exact DeadConn_servers_close st.channel.servers cid conn0.serverIdx hloc

/-- Claim C4: after `handle_error` on connection `cid` the connection is
destroyed before any requeue is attempted and stays absent from every
index (`connection_by_socket`, its server's connection list and `tcp_conn`
pointer, the connection list itself), and it cannot be re-created;
every query that was awaiting an answer on it has had `skip_server`
applied for that server (the skip flag is set whenever the channel has
several servers and the index is in range) and has been handed to
`next_server`, so each such query is afterwards either parked on another
connection or ended with its callback invoked; and no query at all is
left on `cid` — no retry is ever placed back on it.  The hypotheses state
the well-formedness of the starting state: the connection is indexed only
under its own server, is older than the id counter, its query list is
duplicate-free and covers every query parked on it, and query ids are
unique. -/
theorem handle_error_destroys_and_requeues
    (fuel : Nat) (st : EngineState) (cid : Nat) (now : Timeval)
    (conn : Connection) (st' : EngineState)
    (hconn : st.findConn cid = some conn)
    (hloc : ∀ (k : Nat) (srv : Server), st.channel.servers[k]? = some srv →
        (cid ∈ srv.connections → k = conn.serverIdx) ∧
        (srv.tcp_conn = some cid → k = conn.serverIdx))
    (hfresh : cid < st.nextConnId)
    (hnodup : conn.queries_to_conn.Nodup)
    (hpair : st.queries.Pairwise (fun a b => a.qid ≠ b.qid))
    (hsub : ∀ q ∈ st.queries, q.conn = some cid → q.qid ∈ conn.queries_to_conn)
    (hrun : handleErrorF fuel st cid now = some st') :
    DeadConn st' cid
    ∧ (∀ qid ∈ conn.queries_to_conn, Resolved cid qid st')
    ∧ (st.channel.servers.length > 1 →
        ∀ qid ∈ conn.queries_to_conn, ∀ q0, st.findQuery qid = some q0 →
          conn.serverIdx < q0.server_info.length →
          ∀ q', st'.findQuery qid = some q' →
            (q'.server_info.getD conn.serverIdx default).skip_server = true)
    ∧ (∀ q' ∈ st'.queries, q'.conn ≠ some cid) := by
  simp only [handleErrorF] at hrun
  split at hrun
  · cases hrun
  · rename_i conn0 heq
    have hc0 : conn0 = conn := by
      rw [hconn] at heq
      exact (Option.some.inj heq).symm
    subst hc0
    have hid : (conn0.id == cid) = true := by
      have h2 : List.find? (fun c => c.id == cid) st.conns = some conn0 := hconn
      have h3 := List.find?_some h2
      exact h3
    have hfc1 : (updateConn st cid
        (fun c => { c with queries_to_conn := ([] : List Nat) })).findConn cid
        = some { conn0 with queries_to_conn := ([] : List Nat) } := by
      rw [show (updateConn st cid
            (fun c => { c with queries_to_conn := ([] : List Nat) })).findConn cid
          = (st.findConn cid).map
            (fun c => if (c.id == cid) = true
              then { c with queries_to_conn := ([] : List Nat) } else c)
        from find?_conn_map st.conns cid _ (fun c => by split <;> rfl)]
      rw [hconn]
      simp only [Option.map_some']
      rw [if_pos hid]
    have hcd := closeConnection_dead
      (updateConn st cid (fun c => { c with queries_to_conn := ([] : List Nat) }))
      cid { conn0 with queries_to_conn := ([] : List Nat) } hfc1 hloc hfresh
    obtain ⟨hdead0, hq0, he0, hl0⟩ := hcd
    obtain ⟨d2, he2, f2, c2, p2, len2, r2, sk2⟩ :=
      requeueList_ok cid conn0.serverIdx now conn0.queries_to_conn fuel _ st'
        hdead0 hnodup hrun
    refine ⟨d2, r2, ?_, ?_⟩
    · intro hns qid hqid q0 hfq0 hlt q' hq'
      refine sk2 ?_ qid hqid q0 ?_ hlt q' hq'
      · rw [hl0]
        exact hns
      · have hfq' : (closeConnection (updateConn st cid
            (fun c => { c with queries_to_conn := ([] : List Nat) })) cid).findQuery
            qid = st.findQuery qid := by
          rw [EngineState.findQuery, hq0]
          rfl
        rw [hfq']
        exact hfq0
    · intro q' hq' hcn
      obtain ⟨q1, hq1, eqid, hc1⟩ := c2 q' hq' hcn
      rw [hq0] at hq1
      have hqid1 : q1.qid ∈ conn0.queries_to_conn := hsub q1 hq1 hc1
      rcases r2 q1.qid hqid1 with ⟨hnone, _⟩ | ⟨q2, c2x, hfind, hconn2, hne2⟩
      · rw [EngineState.findQuery, List.find?_eq_none] at hnone
        exact hnone q' hq' (beq_iff_eq.mpr eqid.symm)
      · have hpair' : st'.queries.Pairwise (fun a b => a.qid ≠ b.qid) := by
          refine p2 ?_
          rw [hq0]
          exact hpair
        have hfind' : st'.findQuery q'.qid = some q' :=
          find?_eq_of_mem_unique st'.queries q' hpair' hq'
        rw [eqid] at hfind
        rw [hfind'] at hfind
        cases hfind
        rw [hcn] at hconn2
        exact hne2 (Option.some.inj hconn2).symm

/-- Witness fixtures for the `handle_error` claim: two UDP servers, one
broken connection (id 0, fd 10) on server 0 holding query 7, with a
healthy open/write oracle so the retry lands on a fresh connection. -/
def he4Server0 : Server :=
  { idx := 0, addr := exAddr, connections := [0], tcp_conn := none,
    tcp_connection_generation := 1, tcp_send_len := 0 }

def he4Server1 : Server :=
  { idx := 1, addr := { exAddr with addrV4 := [10, 0, 0, 2] }, connections := [],
    tcp_conn := none, tcp_connection_generation := 1, tcp_send_len := 0 }

def he4Channel : Channel :=
  { flagEDNS := false, flagIGNTC := false, flagNOCHECKRESP := false,
    timeout := 1000, tries := 2, udp_max_queries := 0, ednspsz := 1280,
    servers := [he4Server0, he4Server1] }

def he4Query : Query :=
  { qid := 7, timeout := { sec := 5, usec := 0 },
    tcpbuf := [0, 28] ++ List.replicate 28 0, tcplen := 30, qlen := 28,
    try_count := 0, server := 0, server_info := [default, default],
    using_tcp := false, error_status := .etimeout, timeouts := 0,
    no_retries := false, conn := some 0 }

def he4Conn : Connection :=
  { id := 0, serverIdx := 0, fd := 10, is_tcp := false, total_queries := 1,
    queries_to_conn := [7] }

def he4State : EngineState :=
  { channel := he4Channel, conns := [he4Conn], connnode_by_socket := [(10, 0)],
    nextConnId := 1, nextFd := 11, queries := [he4Query], ended := [],
    openPlan := [.success], writePlan := [true] }

def he4Now : Timeval := { sec := 100, usec := 0 }

def he4Final : EngineState := (handleErrorF 5 he4State 0 he4Now).getD he4State

/-- Witness for claim C4 at a concrete state: the run completes, the
broken connection is dead in the final state, query 7 is resolved onto
another connection with the skip flag set for server 0, and no query is
left on connection 0. -/
theorem handle_error_destroys_and_requeues_witness :
    he4State.findConn 0 = some he4Conn
    ∧ handleErrorF 5 he4State 0 he4Now = some he4Final
    ∧ (DeadConn he4Final 0
       ∧ (∀ qid ∈ he4Conn.queries_to_conn, Resolved 0 qid he4Final)
       ∧ (he4State.channel.servers.length > 1 →
           ∀ qid ∈ he4Conn.queries_to_conn, ∀ q0,
             he4State.findQuery qid = some q0 →
             he4Conn.serverIdx < q0.server_info.length →
             ∀ q', he4Final.findQuery qid = some q' →
               (q'.server_info.getD he4Conn.serverIdx default).skip_server = true)
       ∧ (∀ q' ∈ he4Final.queries, q'.conn ≠ some 0)) :=
  ⟨by decide, by decide,
    handle_error_destroys_and_requeues 5 he4State 0 he4Now he4Conn he4Final
      (by decide)
      (by
        intro k srv hk
        cases k with
        | zero =>
          cases hk
          exact ⟨fun _ => rfl, fun h => nomatch h⟩
        | succ n =>
          cases n with
          | zero =>
            cases hk
            exact ⟨fun h => absurd h (by decide), fun h => nomatch h⟩
          | succ m => cases hk)
      (by decide) (by decide) (by decide) (by decide) (by decide)⟩

/-! ### Claim C9 -/

/-- A concrete `fec0::/10` (deprecated site-local) IPv6 address, `fec0::1`. -/
def fec0Addr : List Nat := [0xfe, 0xc0] ++ List.replicate 13 0 ++ [1]

/-- Claim C9 (code bug): `parse_dnsaddrport` is documented
(`ares_init.c` lines 1662-1667) to accept `ipaddr`, `[ipaddr]` and
`[ipaddr]:port`, but the form `[ipaddr]` with no port is always rejected:
because `]` lies inside the token, the port branch is always entered and
demands a `:` after the bracket.  Conjunct 1 shows the rejection for every
possible address-conversion oracle; conjuncts 2 and 3 show the other two
documented forms are accepted (port defaulting to 0); conjuncts 4 and 5
show a `fec0::/10` server is blacklisted and silently rejected. -/
theorem parse_dnsaddrport_bracket_bug :
    (∀ pton4 pton6 : List Char → Option (List Nat),
      parse_dnsaddrport pton4 pton6 "[127.0.0.1]".toList 11 = .ebadstr)
    ∧ parse_dnsaddrport inet_pton4 (fun _ => none) "127.0.0.1".toList 9 =
        .ok4 [127, 0, 0, 1] 0
    ∧ parse_dnsaddrport inet_pton4 (fun _ => none) "[127.0.0.1]:53".toList 14 =
        .ok4 [127, 0, 0, 1] 53
    ∧ parse_dnsaddrport (fun _ => none) (fun _ => some fec0Addr)
        "fec0::1".toList 7 = .ebadstr
    ∧ ares_ipv6_server_blacklisted fec0Addr = true := by
  refine ⟨fun pton4 pton6 => ?_, by decide, by decide, by decide, by decide⟩
  rfl

/-! ### Claim C10 -/

theorem dropWhile_head_false {p : Char → Bool} {l : List Char} {a : Char}
    {rest : List Char} (h : l.dropWhile p = a :: rest) : p a = false := by
  induction l with
  | nil => simp [List.dropWhile] at h
  | cons x l ih =>
    rw [List.dropWhile_cons] at h
    by_cases hx : p x = true
    · rw [if_pos hx] at h
      exact ih h
    · rw [if_neg hx] at h
      cases h
      simpa using hx

/-- The scanning loop of `config_nameserver` terminates: any fuel larger
than the remaining input length yields a result. -/
theorem config_nameserverAux_total
    (pton4 pton6 : List Char → Option (List Nat)) :
    ∀ fuel plan servers (s : List Char), s.length < fuel →
      (config_nameserverAux pton4 pton6 plan servers s fuel).isSome = true := by
  intro fuel
  induction fuel with
  | zero => intro _ _ _ h; omega
  | succ fuel ih =>
    intro plan servers s h
    unfold config_nameserverAux
    cases hr : s.dropWhile isSepC with
    | nil => simp
    | cons a rest =>
      have hlen1 : (a :: rest).length ≤ s.length :=
        hr ▸ (List.dropWhile_sublist isSepC).length_le
      have ha : isSepC a = false := dropWhile_head_false hr
      have hrest : ((a :: rest).dropWhile (fun c => !isSepC c)).length < fuel := by
        have : (a :: rest).dropWhile (fun c => !isSepC c) =
            rest.dropWhile (fun c => !isSepC c) := by
          rw [List.dropWhile_cons]
          simp [ha]
        rw [this]
        have := (List.dropWhile_sublist (l := rest) (fun c => !isSepC c)).length_le
        simp only [List.length_cons] at hlen1
        omega
      dsimp only
      cases hp : parse_dnsaddrport pton4 pton6 (a :: rest)
          ((a :: rest).takeWhile (fun c => !isSepC c)).length with
      | ebadstr => exact ih plan servers _ hrest
      | ok4 a4 port =>
        dsimp only [popAlloc]
        cases hb : plan.headD true with
        | false => simp [hb]
        | true => simpa [hb] using ih plan.tail _ _ hrest
      | ok6 a6 port =>
        dsimp only [popAlloc]
        cases hb : plan.headD true with
        | false => simp [hb]
        | true => simpa [hb] using ih plan.tail _ _ hrest

/-- Behaviour of the scanning loop: the status is never a syntax error
(only `ARES_SUCCESS` or, on allocation failure, `ARES_ENOMEM`), servers
already appended are retained, and with a healthy allocator the result is
always `ARES_SUCCESS`. -/
theorem config_nameserverAux_spec
    (pton4 pton6 : List Char → Option (List Nat)) :
    ∀ fuel plan servers (s : List Char) res,
      config_nameserverAux pton4 pton6 plan servers s fuel = some res →
      (res.1 = .success ∨ res.1 = .enomem)
      ∧ (∃ l, res.2 = servers ++ l)
      ∧ ((∀ b ∈ plan, b = true) → res.1 = .success) := by
  intro fuel
  induction fuel with
  | zero => intro _ _ _ _ h; exact absurd h (by simp [config_nameserverAux])
  | succ fuel ih =>
    intro plan servers s res h
    rw [config_nameserverAux] at h
    cases hr : s.dropWhile isSepC with
    | nil =>
      rw [hr] at h
      simp only [Option.some.injEq] at h
      subst h
      exact ⟨Or.inl rfl, ⟨[], by simp⟩, fun _ => rfl⟩
    | cons a rest =>
      rw [hr] at h
      dsimp only at h
      cases hp : parse_dnsaddrport pton4 pton6 (a :: rest)
          ((a :: rest).takeWhile (fun c => !isSepC c)).length with
      | ebadstr =>
        rw [hp] at h
        exact ih plan servers _ res h
      | ok4 a4 port =>
        rw [hp] at h
        dsimp only [popAlloc] at h
        cases hb : plan.headD true with
        | false =>
          rw [hb] at h
          simp only [Bool.false_eq_true, if_false, Option.some.injEq] at h
          subst h
          refine ⟨Or.inr rfl, ⟨[], by simp⟩, fun hall => ?_⟩
          cases hplan : plan with
          | nil => rw [hplan] at hb; simp at hb
          | cons b bs =>
            rw [hplan] at hb
            have := hall b (by rw [hplan]; exact List.mem_cons_self b bs)
            simp [this] at hb
        | true =>
          rw [hb] at h
          simp only [if_true] at h
          obtain ⟨h1, ⟨l, h2⟩, h3⟩ := ih plan.tail _ _ res h
          refine ⟨h1, ⟨_, by rw [h2, List.append_assoc]⟩, fun hall => ?_⟩
          exact h3 (fun b hb2 => hall b (List.mem_of_mem_tail hb2))
      | ok6 a6 port =>
        rw [hp] at h
        dsimp only [popAlloc] at h
        cases hb : plan.headD true with
        | false =>
          rw [hb] at h
          simp only [Bool.false_eq_true, if_false, Option.some.injEq] at h
          subst h
          refine ⟨Or.inr rfl, ⟨[], by simp⟩, fun hall => ?_⟩
          cases hplan : plan with
          | nil => rw [hplan] at hb; simp at hb
          | cons b bs =>
            rw [hplan] at hb
            have := hall b (by rw [hplan]; exact List.mem_cons_self b bs)
            simp [this] at hb
        | true =>
          rw [hb] at h
          simp only [if_true] at h
          obtain ⟨h1, ⟨l, h2⟩, h3⟩ := ih plan.tail _ _ res h
          refine ⟨h1, ⟨_, by rw [h2, List.append_assoc]⟩, fun hall => ?_⟩
          exact h3 (fun b hb2 => hall b (List.mem_of_mem_tail hb2))

/-- Claim C10: `config_nameserver` never reports a syntax error — every
token that fails to parse (including blacklisted `fec0::/10` servers) is
silently skipped and scanning continues — it returns `ARES_SUCCESS` even
when no token yields a server, its only failure mode is allocation failure
(`ARES_ENOMEM`), and in that case the servers already appended remain.
The closed conjunct runs the parser over a string whose first and last
tokens are garbage: both are skipped and the middle server is kept. -/
theorem config_nameserver_spec (pton4 pton6 : List Char → Option (List Nat))
    (plan : List Bool) (init : List AresAddr) (s : List Char) :
    (∃ res, config_nameserver pton4 pton6 plan init s = some res
      ∧ (res.1 = .success ∨ res.1 = .enomem)
      ∧ (∃ l, res.2 = init ++ l)
      ∧ ((∀ b ∈ plan, b = true) → res.1 = .success))
    ∧ config_nameserver inet_pton4 (fun _ => none) [] []
        "foo 1.2.3.4, bar".toList =
      some (.success,
        [{ family := .inet, addrV4 := [1, 2, 3, 4],
           addrV6 := List.replicate 16 0, udp_port := 0, tcp_port := 0 }]) := by
  constructor
  · have htot := config_nameserverAux_total pton4 pton6 (s.length + 1) plan init s
      (by omega)
    cases hres : config_nameserverAux pton4 pton6 plan init s (s.length + 1) with
    | none => rw [hres] at htot; simp at htot
    | some res =>
      exact ⟨res, hres,
        config_nameserverAux_spec pton4 pton6 (s.length + 1) plan init s res hres⟩
  · decide

end CAres
